import Mathlib

/-
Verification of the natural-language specification of the cytoflow
k-means clustering operation (`KMeansOp` in cytoflow/operations/kmeans.py)
against a shallow embedding of the source.

Modelling conventions:
* A dataframe cell is `Cell`: a rational number, a not-a-number marker, or a
  string (category labels).  NaN models floating-point NaN as used by the
  source for "missing after scaling".
* A row is a total function from column names to cells; an `Experiment`
  carries its column list, rows, statistics dictionary and history, the
  parts of the cytoflow Experiment container the operation touches.
* Python dicts are association lists; `dinsert` overwrites in place or
  appends (Python dict semantics), `dlookup` returns the stored value.
* The external collaborators excluded from the spec are parameters,
  bundled in `Ext`: the scale factory (`cytoflow.utility.scale_factory`),
  the process-wide default scale, and the sklearn MiniBatchKMeans fitting
  routine.  `KMModel.predict` is the concrete sklearn prediction rule:
  index of the nearest centroid (first argmin of squared distances).
* Exceptions are `CFError`: the two typed cytoflow errors with their
  message strings, plus Python's KeyError (dict lookup miss) and
  IndexError (numpy out-of-bounds), which the source does not catch.
* Group iteration order is first-occurrence order of the key in the data;
  the source's pandas groupby sorts keys, but no property proved here
  depends on the order in which groups are visited.
-/

namespace Cytoflow

/-- A dataframe cell: numeric value, not-a-number, or a string category. -/
inductive Cell
  | num (q : ℚ)
  | nan
  | str (s : String)
  deriving DecidableEq

/-- A dataframe row: column name to cell. -/
abbrev Row : Type := String → Cell

/-- The all-NaN row, used as the out-of-range default for positional access. -/
def defaultRow : Row := fun _ => Cell.nan

/-- A possibly-missing numeric value; `none` models NaN after scaling. -/
abbrev Val : Type := Option ℚ

/-- A fitted scale transform (`IScale`): the forward map, which sends values
outside the scale domain to NaN (`none`), and the inverse map. -/
structure Scale where
  f : ℚ → Option ℚ
  inv : ℚ → ℚ

/-- The dummy scale used only as a `getD` fallback that is never reached. -/
def dummyScale : Scale := ⟨fun _ => none, id⟩

/-- Applying a scale to a cell: NaN and string cells scale to NaN. -/
def scaleApp (s : Scale) (c : Cell) : Val :=
  match c with
  | Cell.num q => s.f q
  | Cell.nan => none
  | Cell.str _ => none

/-- Python dict lookup on an association list. -/
def dlookup {α β : Type} [DecidableEq α] (k : α) : List (α × β) → Option β
  | [] => none
  | e :: rest => if e.1 = k then some e.2 else dlookup k rest

/-- Python dict store: overwrite the binding in place, or append it. -/
def dinsert {α β : Type} [DecidableEq α] (k : α) (v : β) : List (α × β) → List (α × β)
  | [] => [(k, v)]
  | e :: rest => if e.1 = k then (k, v) :: rest else e :: dinsert k v rest

/-- Squared euclidean distance between a point and a centroid (zip-truncating,
as the dimensions always agree in the modelled configurations). -/
def sqDist (p c : List ℚ) : ℚ :=
  ((p.zip c).map (fun ab => (ab.1 - ab.2) * (ab.1 - ab.2))).sum

/-- Index of the first minimum of a list (numpy argmin tie-breaking). -/
def argminAux : List ℚ → ℕ → ℚ → ℕ → ℕ
  | [], b, _, _ => b
  | a :: rest, b, bv, i => if a < bv then argminAux rest i a (i + 1) else argminAux rest b bv (i + 1)

/-- First index attaining the minimum; 0 on the empty list. -/
def argminIdx : List ℚ → ℕ
  | [] => 0
  | a :: rest => argminAux rest 0 a 1

/-- A fitted sklearn MiniBatchKMeans model: its `cluster_centers_` array. -/
structure KMModel where
  centers : List (List ℚ)
  deriving DecidableEq

/-- sklearn `predict` for one point: the index of the nearest centroid. -/
def KMModel.predict (m : KMModel) (p : List ℚ) : ℕ :=
  argminIdx (m.centers.map (fun c => sqDist p c))

/-- Key of a statistics entry: grouping-key values, cluster index, channel. -/
abbrev StatKey : Type := List Cell × ℕ × String

/-- The "centers" statistic: a pandas Series indexed by `StatKey`;
`none` values are the NaN placeholders of never-written index entries. -/
abbrev Stat : Type := List (StatKey × Val)

/-- The operation configuration: the non-transient traits of `KMeansOp`.
`by_` stands for the source's `by` trait (a Lean keyword). -/
structure KMeansOp where
  name : String
  channels : List String
  scale : List (String × String)
  num_clusters : ℕ
  by_ : List String
  deriving DecidableEq

/-- The dataset container (the parts of `Experiment` the operation uses). -/
structure Experiment where
  columns : List String
  rows : List Row
  statistics : List ((String × String) × Stat)
  history : List KMeansOp

/-- The empty experiment, used as an out-of-range default. -/
def emptyExperiment : Experiment := ⟨[], [], [], []⟩

/-- The operation's transient per-group model and per-channel scale storage
(`_kmeans` and `_scale`). -/
structure OpState where
  kmeans : List (List Cell × KMModel)
  scales : List (String × Scale)

/-- The full mutable operation object: configuration plus transient storage. -/
structure OpObj where
  config : KMeansOp
  state : OpState

/-- The typed errors the operation can surface: the two cytoflow error
classes with their message, and the uncaught Python KeyError / numpy
IndexError. -/
inductive CFError
  | opError (msg : String)
  | viewError (msg : String)
  | keyError
  | indexError
  deriving DecidableEq

/-- The external collaborators: scale factory, process-wide default scale
kind, and the sklearn fit routine (cluster count and data matrix to model). -/
structure Ext where
  factory : String → Experiment → String → Scale
  defaultScale : String
  fit : ℕ → List (List ℚ) → KMModel

/-- A subset filter argument: the query string together with its evaluation
(`none` when the query expression is invalid and raises). -/
structure Subset where
  expr : String
  eval : Option (Row → Bool)

/-- Decimal digits of a natural number, accumulator style with enough fuel
(structural recursion, so that labels evaluate by kernel reduction). -/
def natDigitsAux : ℕ → ℕ → List Char → List Char
  | 0, _, acc => acc
  | fuel + 1, n, acc =>
    if n = 0 then acc else natDigitsAux fuel (n / 10) (Char.ofNat (48 + n % 10) :: acc)

/-- Decimal rendering of a natural number (Python `str`). -/
def natDec (n : ℕ) : String :=
  if n = 0 then "0" else String.mk (natDigitsAux (n + 1) n [])

/-- The `{name}_None` assignment label. -/
def nameNone (op : KMeansOp) : String := op.name ++ "_None"

/-- The `{name}_{c+1}` assignment label of 0-based cluster `c`. -/
def nameCluster (op : KMeansOp) (c : ℕ) : String := op.name ++ "_" ++ natDec (c + 1)

/-- `map` and concatenate. -/
def catMap {α β : Type} (f : α → List β) : List α → List β
  | [] => []
  | a :: l => f a ++ catMap f l

/-- Cartesian product of value lists (`pandas.MultiIndex.from_product`),
rightmost factor varying fastest. -/
def listProd : List (List Cell) → List (List Cell)
  | [] => [[]]
  | xs :: rest => catMap (fun x => (listProd rest).map (fun combo => x :: combo)) xs

/-- The distinct values of a column (`Series.unique`), NaN included once. -/
def uniqueCells (ex : Experiment) (col : String) : List Cell :=
  (ex.rows.map (fun r => r col)).dedup

/-- The grouping key of one row: the tuple of its `by` column values, or
`none` when one of them is NaN (pandas groupby drops NaN keys).  With no
grouping keys every row gets the sentinel key `[]` (the source's single
`groupby(lambda _: True)` group). -/
def rowKey (by_ : List String) (r : Row) : Option (List Cell) :=
  if (by_.map r).any (fun c => decide (c = Cell.nan)) then none else some (by_.map r)

/-- The group keys occurring in the data. -/
def groupKeysOf (by_ : List String) (rows : List Row) : List (List Cell) :=
  (rows.filterMap (rowKey by_)).dedup

/-- The row positions belonging to one group key. -/
def idxsOf (by_ : List String) (rows : List Row) (k : List Cell) : List ℕ :=
  (List.range rows.length).filter (fun i => decide (rowKey by_ (rows.getD i defaultRow) = some k))

/-- The groupby partition: each occurring key with its row positions. -/
def partitionIdx (by_ : List String) (rows : List Row) : List (List Cell × List ℕ) :=
  (groupKeysOf by_ rows).map (fun k => (k, idxsOf by_ rows k))

/-- Exception-propagating sequencing (Python control flow: an uncaught
exception aborts the method). -/
def ebind {α β : Type} (x : Except CFError α) (f : α → Except CFError β) : Except CFError β :=
  match x with
  | Except.error e => Except.error e
  | Except.ok a => f a

/-- Python dict subscript `d[k]`: the value, or an uncaught KeyError. -/
def keyLookup {α β : Type} [DecidableEq α] (k : α) (l : List (α × β)) : Except CFError β :=
  match dlookup k l with
  | none => Except.error CFError.keyError
  | some v => Except.ok v

/-- Turning a validation result into control flow. -/
def optErr (o : Option CFError) : Except CFError Unit :=
  match o with
  | some e => Except.error e
  | none => Except.ok ()

/-- Error-propagating map over a list (`Except` traversal). -/
def exMapM {α β : Type} (f : α → Except CFError β) : List α → Except CFError (List β)
  | [] => Except.ok []
  | a :: rest =>
    match f a with
    | Except.error e => Except.error e
    | Except.ok b =>
      match exMapM f rest with
      | Except.error e => Except.error e
      | Except.ok bs => Except.ok (b :: bs)

/-- Reading the stored scale of each channel (`self._scale[c]`); a missing
channel is a Python KeyError. -/
def lookupScales (st : OpState) (channels : List String) : Except CFError (List Scale) :=
  exMapM (fun c =>
    match dlookup c st.scales with
    | some s => Except.ok s
    | none => Except.error CFError.keyError) channels

/-- One row's channel values after scaling, for channel/scale pairs. -/
def scaledRowA (prs : List (String × Scale)) (r : Row) : List Val :=
  prs.map (fun cs => scaleApp cs.2 (r cs.1))

/-- The scaled data matrix of the rows at the given positions, with the rows
containing any NaN dropped (the source's per-channel `isnan` filter). -/
def validMatrix (prs : List (String × Scale)) (rows : List Row) (idxs : List ℕ) : List (List ℚ) :=
  (idxs.map (fun i => scaledRowA prs (rows.getD i defaultRow))).filterMap
    (fun vs => if vs.any Option.isNone then none else some (vs.map (fun v => v.getD 0)))

/-- Positional series update: each `(position, value)` pair in turn. -/
def setMany (a : ℕ → String) : List (ℕ × String) → ℕ → String
  | [] => a
  | p :: rest => setMany (Function.update a p.1 p.2) rest

/-- `Series.loc` write at an existing key: overwrite every matching entry. -/
def statSet (k : StatKey) (v : Val) : Stat → Stat :=
  List.map (fun e => if e.1 = k then (k, v) else e)

/-- The index of the centers statistic: product of the observed values of
each `by` column, the 1-based cluster indices, and the channels. -/
def statKeys (op : KMeansOp) (ex : Experiment) : List StatKey :=
  catMap (fun combo =>
      catMap (fun c => op.channels.map (fun ch => ((combo, c + 1, ch) : StatKey)))
        (List.range op.num_clusters))
    (listProd (op.by_.map (fun b => uniqueCells ex b)))

/-- The centers statistic before any group is processed: all NaN. -/
def statInit (op : KMeansOp) (ex : Experiment) : Stat :=
  (statKeys op ex).map (fun k => (k, (none : Val)))

/-- The assignment label of one row, given the group's fitted model: the
source initialises `predicted_str` to `"(none)"`, overwrites positions with
predicted cluster `c < num_clusters` by `{name}_{c+1}`, and positions with
prediction `-1` (a NaN scaled value) by `{name}_None`. -/
def rowLabel (op : KMeansOp) (prs : List (String × Scale)) (m : KMModel) (r : Row) : String :=
  let sc := scaledRowA prs r
  if sc.any Option.isNone then nameNone op
  else
    let c := m.predict (sc.map (fun v => v.getD 0))
    if c < op.num_clusters then nameCluster op c else "(none)"

/-- The sequence of statistic writes of one group: for every cluster and
every channel, the inverse-scaled centroid coordinate
(`self._scale[channel].inverse(kmeans.cluster_centers_[c, cidx])`);
an out-of-bounds centroid access is a numpy IndexError. -/
def centerWrites (op : KMeansOp) (prs : List (String × Scale)) (m : KMModel)
    (g : List Cell) : Except CFError (List (StatKey × Val)) :=
  ebind (exMapM (fun c =>
      exMapM (fun ics =>
          match (m.centers.get? c).bind (fun cen => cen.get? ics.1) with
          | none => Except.error CFError.indexError
          | some q => Except.ok (((g, c + 1, ics.2.1) : StatKey), (some (ics.2.2.inv q) : Val)))
        prs.enum)
    (List.range op.num_clusters))
    (fun wss => Except.ok wss.flatten)

/-- Recording one group's centroid statistics. -/
def writeCenters (op : KMeansOp) (prs : List (String × Scale)) (m : KMModel)
    (g : List Cell) (s : Stat) : Except CFError Stat :=
  ebind (centerWrites op prs m g)
    (fun ws => Except.ok (ws.foldl (fun acc kv => statSet kv.1 kv.2 acc) s))

/-- The per-group loop of `apply`: scale the group's rows with the stored
scales, look up the group's stored model (KeyError when absent), write the
assignment labels at the group's row positions, and record the centroid
statistics. -/
def processGroups (op : KMeansOp) (st : OpState) (rows : List Row) :
    List (List Cell × List ℕ) → ((ℕ → String) × Stat) → Except CFError ((ℕ → String) × Stat)
  | [], acc => Except.ok acc
  | (g, idxs) :: rest, acc =>
    if idxs = [] then Except.error (CFError.opError "Group had no data")
    else
      ebind (lookupScales st op.channels) (fun scs =>
        let prs := op.channels.zip scs
        ebind (keyLookup g st.kmeans) (fun m =>
          let a2 := setMany acc.1
            (idxs.map (fun i => (i, rowLabel op prs m (rows.getD i defaultRow))))
          ebind (writeCenters op prs m g acc.2) (fun s2 =>
            processGroups op st rows rest (a2, s2))))

/-- The "aggregation metadata not found" message. -/
def aggMsg (b : String) : String :=
  "Aggregation metadata " ++ b ++ " not found in the experiment"

/-- The "more than 100 unique values" message (the source's magic number). -/
def cardMsg (b : String) : String :=
  "More than 100 unique values found for aggregation metadata " ++ b ++
    ".  Did you accidentally specify a data channel?"

/-- Validation of the `by` grouping keys: each must be a column of the
experiment and have at most 100 distinct values. -/
def checkBy (ex : Experiment) : List String → Option CFError
  | [] => none
  | b :: rest =>
    if b ∈ ex.columns then
      if 100 < (uniqueCells ex b).length then some (CFError.opError (cardMsg b))
      else checkBy ex rest
    else some (CFError.opError (aggMsg b))

/-- Validation of the channel list: each channel must be a column. -/
def checkChannels (ex : Experiment) : List String → Option CFError
  | [] => none
  | c :: rest =>
    if c ∈ ex.columns then checkChannels ex rest
    else some (CFError.opError ("Channel " ++ c ++ " not found in the experiment"))

/-- Validation of explicit scale overrides: each key must be a channel. -/
def checkScaleKeys (op : KMeansOp) : List (String × String) → Option CFError
  | [] => none
  | e :: rest =>
    if e.1 ∈ op.channels then checkScaleKeys op rest
    else some (CFError.opError
      ("Scale set for channel " ++ e.1 ++ ", but it isn\x27t in the experiment"))

/-- The validation block shared verbatim by `estimate` and `apply`:
non-empty channel list, channels exist, scale overrides are channels,
grouping keys exist with at most 100 distinct values. -/
def sharedChecks (op : KMeansOp) (ex : Experiment) : Option CFError :=
  if op.channels = [] then some (CFError.opError "Must set at least one channel")
  else
    match checkChannels ex op.channels with
    | some e => some e
    | none =>
      match checkScaleKeys op op.scale with
      | some e => some e
      | none => checkBy ex op.by_

/-- Applying the optional subset filter: an invalid query or an empty
selection raises a `CytoflowViewError`. -/
def resolveSubset (ex : Experiment) : Option Subset → Except CFError Experiment
  | none => Except.ok ex
  | some s =>
    match s.eval with
    | none => Except.error (CFError.viewError
        ("Subset string \x27" ++ s.expr ++ "\x27 isn\x27t valid"))
    | some p =>
      let ex2 : Experiment := ⟨ex.columns, ex.rows.filter p, ex.statistics, ex.history⟩
      if ex2.rows.length = 0 then Except.error (CFError.viewError
          ("Subset string \x27" ++ s.expr ++ "\x27 returned no events"))
      else Except.ok ex2

/-- The scale of one channel as `estimate` resolves it: the explicit
override if present, else the process-wide default scale kind. -/
def estScaleFun (ext : Ext) (op : KMeansOp) (ex : Experiment) : String → Scale :=
  fun c => ext.factory ((dlookup c op.scale).getD ext.defaultScale) ex c

/-- The channel/scale pairs `estimate` fits, in channel order. -/
def freshScales (ext : Ext) (op : KMeansOp) (ex : Experiment) : List (String × Scale) :=
  op.channels.map (fun c => (c, estScaleFun ext op ex c))

/-- The `_scale` dict after `estimate` stored this call's scales: the fresh
scales overwrite per key, stale entries for other channels persist. -/
def estScaleDict (ext : Ext) (op : KMeansOp) (st : OpState) (ex : Experiment) :
    List (String × Scale) :=
  (freshScales ext op ex).foldl (fun acc cs => dinsert cs.1 cs.2 acc) st.scales

/-- The per-group fitting loop of `estimate`: store a freshly fitted model
under each group key (overwriting; stale keys persist). -/
def estFit (ext : Ext) (op : KMeansOp) (prs : List (String × Scale)) (rows : List Row) :
    List (List Cell × List ℕ) → OpState → OpState × Option CFError
  | [], st => (st, none)
  | (g, idxs) :: rest, st =>
    if idxs = [] then (st, some (CFError.opError "Group had no data"))
    else estFit ext op prs rows rest
      ⟨dinsert g (ext.fit op.num_clusters (validMatrix prs rows idxs)) st.kmeans, st.scales⟩

/-- The post-validation part of `estimate`: fit and store the per-channel
scales over the whole (filtered) dataset, then fit one model per group. -/
def estimateFit (ext : Ext) (op : KMeansOp) (st : OpState) (ex : Experiment) :
    OpState × Option CFError :=
  let scales2 := estScaleDict ext op st ex
  match lookupScales ⟨st.kmeans, scales2⟩ op.channels with
  | Except.error e => (⟨st.kmeans, scales2⟩, some e)
  | Except.ok scs =>
    estFit ext op (op.channels.zip scs) ex.rows (partitionIdx op.by_ ex.rows)
      ⟨st.kmeans, scales2⟩

/-- `KMeansOp.estimate`: validation in source order, subset filtering, scale
fitting, per-group model fitting.  Returns the new transient storage and
the raised error, if any (the storage reached at the raise point). -/
def estimate (ext : Ext) (op : KMeansOp) (st : OpState) (exOpt : Option Experiment)
    (subset : Option Subset) : OpState × Option CFError :=
  match exOpt with
  | none => (st, some (CFError.opError "No experiment specified"))
  | some ex =>
    if op.num_clusters < 2 then (st, some (CFError.opError "num_clusters must be >= 2"))
    else
      match sharedChecks op ex with
      | some e => (st, some e)
      | none =>
        match resolveSubset ex subset with
        | Except.error e => (st, some e)
        | Except.ok ex2 => estimateFit ext op st ex2

/-- `KMeansOp.apply`: validation in source order, then per-group labelling
and centroid statistics, then the cloned experiment with the new
categorical column, the "centers" statistic, and the history entry. -/
def applyOp (op : KMeansOp) (st : OpState) (exOpt : Option Experiment) :
    Except CFError Experiment :=
  match exOpt with
  | none => Except.error (CFError.opError "No experiment specified")
  | some ex =>
    if op.name = "" then
      Except.error (CFError.opError "You have to set the gate\x27s name before applying it!")
    else if op.name ∈ ex.columns then
      Except.error (CFError.opError ("Experiment already has a column named " ++ op.name))
    else
      ebind (optErr (sharedChecks op ex)) (fun _ =>
        ebind (processGroups op st ex.rows (partitionIdx op.by_ ex.rows)
            (fun _ => nameNone op, statInit op ex)) (fun asg =>
          Except.ok
            ⟨ex.columns ++ [op.name],
             ex.rows.enum.map (fun p => fun c =>
               if c = op.name then Cell.str (asg.1 p.1) else p.2 c),
             dinsert (op.name, "centers") asg.2 ex.statistics,
             ex.history ++ [op]⟩))

/-- `estimate` as a method on the operation object: it rebinds only the
transient storage (the source writes only `self._kmeans` / `self._scale`). -/
def estimateM (ext : Ext) (o : OpObj) (exOpt : Option Experiment) (subset : Option Subset) :
    Option CFError × OpObj :=
  ((estimate ext o.config o.state exOpt subset).2,
   ⟨o.config, (estimate ext o.config o.state exOpt subset).1⟩)

/-- `apply` as a method on the operation object: the source assigns to no
attribute of `self`, so the object is returned unchanged. -/
def applyM (o : OpObj) (exOpt : Option Experiment) : Except CFError Experiment × OpObj :=
  (applyOp o.config o.state exOpt, o)

/-- A diagnostic view as `default_view` builds it (the live plotting state
is external and elided): the chosen channel(s) and scale kind(s). -/
inductive DView
  | oneD (channel : String) (scale : String)
  | twoD (xchannel ychannel : String) (xscale yscale : String)
  deriving DecidableEq

/-- `KMeansOp.default_view`: validates the viewed channels and the scale
dict keys, then inserts the process-wide default scale kind for every
viewed channel missing from the scale dict — in place on the operation's
own `scale` trait when no explicit `scale` argument was passed — and
dispatches on the number of viewed channels.  Returns the view (or error)
together with the operation configuration after the call. -/
def default_view (op : KMeansOp) (chArg : Option (List String))
    (scArg : Option (List (String × String))) (dflt : String) :
    Except CFError DView × KMeansOp :=
  let channels := chArg.getD op.channels
  let scale0 := scArg.getD op.scale
  match channels.find? (fun c => decide (c ∉ op.channels)) with
  | some c =>
    (Except.error (CFError.viewError
      ("Channel " ++ c ++ " isn\x27t in the operation\x27s channels")), op)
  | none =>
    match (scale0.map Prod.fst).find? (fun c => decide (c ∉ op.channels)) with
    | some c =>
      (Except.error (CFError.viewError
        ("Channel " ++ c ++ " isn\x27t in the operation\x27s channels")), op)
    | none =>
      let scale2 := channels.foldl
        (fun acc c => if (dlookup c acc).isSome then acc else dinsert c dflt acc) scale0
      let op2 := if scArg.isSome then op else
        ⟨op.name, op.channels, scale2, op.num_clusters, op.by_⟩
      if channels.length = 0 then
        (Except.error (CFError.viewError "Must specify at least one channel for a default view"),
         op2)
      else if channels.length = 1 then
        (Except.ok (DView.oneD (channels.getD 0 "")
          ((dlookup (channels.getD 0 "") scale2).getD dflt)), op2)
      else if channels.length = 2 then
        (Except.ok (DView.twoD (channels.getD 0 "") (channels.getD 1 "")
          ((dlookup (channels.getD 0 "") scale2).getD dflt)
          ((dlookup (channels.getD 1 "") scale2).getD dflt)), op2)
      else
        (Except.error (CFError.viewError "Can\x27t specify more than two channels for a default view"),
         op2)

/-- The assignment column of an experiment under a column name. -/
def assignCol (ex : Experiment) (name : String) : List Cell :=
  ex.rows.map (fun r => r name)

/-- The stored "centers" statistic of an operation name. -/
def centersOf (ex : Experiment) (name : String) : Option Stat :=
  dlookup (name, "centers") ex.statistics

/-- Whether an `apply` result succeeded. -/
def isOkE (r : Except CFError Experiment) : Bool :=
  match r with
  | Except.ok _ => true
  | Except.error _ => false

/-- The experiment of a successful `apply` result. -/
def okD (r : Except CFError Experiment) : Experiment :=
  match r with
  | Except.ok e => e
  | Except.error _ => emptyExperiment

/-- The cell of an experiment at row position `i`, column `c`. -/
def getCell (ex : Experiment) (i : ℕ) (c : String) : Cell :=
  (ex.rows.getD i defaultRow) c

/-- The observed (non-NaN, numeric) values of a channel column. -/
def chanVals (ex : Experiment) (ch : String) : List ℚ :=
  ex.rows.filterMap (fun r =>
    match r ch with
    | Cell.num q => some q
    | _ => none)

/-- The scaled observed values of a channel column (NaN dropped). -/
def scaledValsOf (ex : Experiment) (ch : String) (sc : Scale) : List ℚ :=
  ex.rows.filterMap (fun r => scaleApp sc (r ch))

/-- Bool well-formedness of a stored model for a configuration: the centers
array has `num_clusters` rows of `channels.length` coordinates (what a
model fitted by `estimate` under this configuration looks like). -/
def wfOpt (op : KMeansOp) : Option KMModel → Bool
  | none => true
  | some m =>
    (m.centers.length == op.num_clusters) &&
      m.centers.all (fun cen => cen.length == op.channels.length)

/-! ### Dictionary lemmas -/

theorem dlookup_dinsert_self {α β : Type} [DecidableEq α] (k : α) (v : β) (l : List (α × β)) :
    dlookup k (dinsert k v l) = some v := by
  induction l with
  | nil => simp [dinsert, dlookup]
  | cons e rest ih =>
    by_cases h : e.1 = k
    · simp [dinsert, h, dlookup]
    · simp [dinsert, h, dlookup, ih]

theorem dlookup_dinsert_ne {α β : Type} [DecidableEq α] (k k' : α) (v : β) (l : List (α × β))
    (h : k' ≠ k) : dlookup k' (dinsert k v l) = dlookup k' l := by
  induction l with
  | nil => simp [dinsert, dlookup, Ne.symm h]
  | cons e rest ih =>
    by_cases he : e.1 = k
    · subst he
      simp only [dinsert, if_pos rfl, dlookup]
      rw [if_neg (fun hc => h hc.symm), if_neg (fun hc => h hc.symm)]
    · simp only [dinsert, if_neg he, dlookup]
      by_cases he' : e.1 = k'
      · simp [he']
      · simp [he', ih]

theorem dlookup_eq_none_iff {α β : Type} [DecidableEq α] {k : α} {l : List (α × β)} :
    dlookup k l = none ↔ k ∉ l.map Prod.fst := by
  induction l with
  | nil => simp [dlookup]
  | cons e rest ih =>
    by_cases he : e.1 = k
    · simp [dlookup, he]
    · have hke : ¬(k = e.1) := fun hc => he hc.symm
      simp only [dlookup, if_neg he, List.map_cons, List.mem_cons, ih]
      constructor
      · intro h1 h2
        rcases h2 with h2 | h2
        · exact hke h2
        · exact h1 h2
      · intro h1 h2
        exact h1 (Or.inr h2)

theorem dlookup_eq_some_of_mem {α β : Type} [DecidableEq α] {k : α} {v : β} {l : List (α × β)}
    (hmem : (k, v) ∈ l) (hnd : (l.map Prod.fst).Nodup) : dlookup k l = some v := by
  induction l with
  | nil => simp at hmem
  | cons e rest ih =>
    simp only [List.map_cons, List.nodup_cons] at hnd
    rcases List.mem_cons.mp hmem with h | h
    · simp [dlookup, ← h]
    · have hk : k ∈ rest.map Prod.fst := List.mem_map.mpr ⟨(k, v), h, rfl⟩
      have hne : e.1 ≠ k := fun hc => hnd.1 (hc ▸ hk)
      simp [dlookup, hne, ih h hnd.2]

theorem dlookup_append_some {α β : Type} [DecidableEq α] {k : α} {v : β} {l₁ : List (α × β)}
    (l₂ : List (α × β)) (h : dlookup k l₁ = some v) : dlookup k (l₁ ++ l₂) = some v := by
  induction l₁ with
  | nil => simp [dlookup] at h
  | cons e rest ih =>
    by_cases he : e.1 = k
    · simp only [dlookup, if_pos he] at h
      simp [dlookup, he, h]
    · simp only [dlookup, if_neg he] at h
      simp [dlookup, he, ih h]

theorem dlookup_append_none {α β : Type} [DecidableEq α] {k : α} {l₁ : List (α × β)}
    (l₂ : List (α × β)) (h : dlookup k l₁ = none) : dlookup k (l₁ ++ l₂) = dlookup k l₂ := by
  induction l₁ with
  | nil => simp
  | cons e rest ih =>
    by_cases he : e.1 = k
    · simp [dlookup, he] at h
    · simp only [dlookup, if_neg he] at h
      simp [dlookup, he, ih h]

/-- Folding dict stores: the result of a sequence of `dinsert`s looks up as
the last store for the key (i.e. the first in the reversed list), else as
the original dict. -/
theorem foldl_dinsert_rev {α β : Type} [DecidableEq α] (ps : List (α × β)) (acc : List (α × β))
    (k : α) :
    dlookup k (ps.foldl (fun a p => dinsert p.1 p.2 a) acc) =
      match dlookup k ps.reverse with
      | some v => some v
      | none => dlookup k acc := by
  induction ps generalizing acc with
  | nil => simp [dlookup]
  | cons p rest ih =>
    simp only [List.foldl_cons, List.reverse_cons]
    rw [ih]
    by_cases hr : ∃ v, dlookup k rest.reverse = some v
    · obtain ⟨v, hv⟩ := hr
      rw [hv, dlookup_append_some [p] hv]
    · have hnone : dlookup k rest.reverse = none := by
        cases hcase : dlookup k rest.reverse with
        | none => rfl
        | some v => exact absurd ⟨v, hcase⟩ hr
      rw [hnone, dlookup_append_none [p] hnone]
      by_cases he : p.1 = k
      · subst he
        rw [dlookup_dinsert_self]
        simp [dlookup]
      · rw [dlookup_dinsert_ne _ _ _ _ (fun hc => he hc.symm)]
        simp [dlookup, he]

theorem dlookup_map_self {α β : Type} [DecidableEq α] (f : α → β) (l : List α) (k : α) :
    dlookup k (l.map (fun a => (a, f a))) = if k ∈ l then some (f k) else none := by
  induction l with
  | nil => simp [dlookup]
  | cons a rest ih =>
    by_cases ha : a = k
    · subst ha
      simp [dlookup]
    · have hka : ¬(k = a) := fun hc => ha hc.symm
      simp only [List.map_cons, dlookup, if_neg ha, ih]
      simp [List.mem_cons, hka]

/-! ### `setMany` lemmas -/

theorem ebind_ok {α β : Type} (a : α) (f : α → Except CFError β) :
    ebind (Except.ok a) f = f a := rfl

theorem ebind_error {α β : Type} (e : CFError) (f : α → Except CFError β) :
    ebind (Except.error e) f = Except.error e := rfl

theorem keyLookup_none {α β : Type} [DecidableEq α] {k : α} {l : List (α × β)}
    (h : dlookup k l = none) : keyLookup k l = (Except.error CFError.keyError : Except CFError β) := by
  unfold keyLookup
  rw [h]

theorem keyLookup_some {α β : Type} [DecidableEq α] {k : α} {l : List (α × β)} {v : β}
    (h : dlookup k l = some v) : keyLookup k l = Except.ok v := by
  unfold keyLookup
  rw [h]

theorem optErr_some (e : CFError) : optErr (some e) = Except.error e := rfl

theorem optErr_none : optErr none = Except.ok () := rfl

/-! ### `exMapM` lemmas -/

theorem exMapM_ok {α β : Type} (f : α → Except CFError β) (g : α → β) (l : List α)
    (h : ∀ a ∈ l, f a = Except.ok (g a)) : exMapM f l = Except.ok (l.map g) := by
  induction l with
  | nil => rfl
  | cons a rest ih =>
    simp only [exMapM]
    rw [h a (List.mem_cons_self a rest), ih (fun x hx => h x (List.mem_cons_of_mem a hx))]
    rfl

theorem lookupScales_ok (st : OpState) (cs : List String)
    (h : ∀ c ∈ cs, (dlookup c st.scales).isSome = true) :
    lookupScales st cs = Except.ok (cs.map (fun c => (dlookup c st.scales).getD dummyScale)) := by
  apply exMapM_ok
  intro c hc
  obtain ⟨s, hs⟩ := Option.isSome_iff_exists.mp (h c hc)
  rw [hs]
  rfl

/-! ### Partition lemmas -/

theorem mem_idxsOf {by_ : List String} {rows : List Row} {k : List Cell} {i : ℕ} :
    i ∈ idxsOf by_ rows k ↔ i < rows.length ∧ rowKey by_ (rows.getD i defaultRow) = some k := by
  simp [idxsOf, List.mem_filter, List.mem_range]

theorem nodup_groupKeysOf (by_ : List String) (rows : List Row) :
    (groupKeysOf by_ rows).Nodup :=
  List.nodup_dedup _

theorem mem_groupKeysOf {by_ : List String} {rows : List Row} {k : List Cell} :
    k ∈ groupKeysOf by_ rows ↔ ∃ r ∈ rows, rowKey by_ r = some k := by
  simp [groupKeysOf, List.mem_dedup, List.mem_filterMap]

theorem getD_eq_getElem {α : Type} (l : List α) (i : ℕ) (d : α) (h : i < l.length) :
    l.getD i d = l[i] := by
  rw [List.getD_eq_getElem?_getD, List.getElem?_eq_getElem h]
  rfl

theorem mem_groupKeysOf_idx {by_ : List String} {rows : List Row} {k : List Cell} :
    k ∈ groupKeysOf by_ rows ↔
      ∃ i, i < rows.length ∧ rowKey by_ (rows.getD i defaultRow) = some k := by
  rw [mem_groupKeysOf]
  constructor
  · rintro ⟨r, hr, hk⟩
    obtain ⟨n, hn, hget⟩ := List.mem_iff_getElem.mp hr
    exact ⟨n, hn, by rw [getD_eq_getElem _ _ _ hn, hget]; exact hk⟩
  · rintro ⟨i, hi, hk⟩
    refine ⟨rows.getD i defaultRow, ?_, hk⟩
    rw [getD_eq_getElem _ _ _ hi]
    exact List.getElem_mem hi

theorem idxsOf_ne_nil {by_ : List String} {rows : List Row} {k : List Cell}
    (h : k ∈ groupKeysOf by_ rows) : idxsOf by_ rows k ≠ [] := by
  obtain ⟨i, hi, hk⟩ := mem_groupKeysOf_idx.mp h
  exact List.ne_nil_of_mem (mem_idxsOf.mpr ⟨hi, hk⟩)

theorem partition_ne_nil (by_ : List String) (rows : List Row) :
    ∀ p ∈ partitionIdx by_ rows, p.2 ≠ [] := by
  intro p hp
  obtain ⟨k, hk, rfl⟩ := List.mem_map.mp hp
  exact idxsOf_ne_nil hk

theorem partition_keys_nodup (by_ : List String) (rows : List Row) :
    ((partitionIdx by_ rows).map Prod.fst).Nodup := by
  unfold partitionIdx
  rw [List.map_map]
  have hcomp : (Prod.fst ∘ fun k => (k, idxsOf by_ rows k)) = (id : List Cell → List Cell) := rfl
  rw [hcomp, List.map_id]
  exact nodup_groupKeysOf by_ rows

theorem zip_map_self {α β : Type} (l : List α) (f : α → β) :
    l.zip (l.map f) = l.map (fun a => (a, f a)) := by
  have h := List.zip_map' id f l
  rw [List.map_id] at h
  exact h

theorem estFit_ok (ext : Ext) (op : KMeansOp) (prs : List (String × Scale)) (rows : List Row)
    (gs : List (List Cell × List ℕ)) (st : OpState) (h : ∀ p ∈ gs, p.2 ≠ []) :
    estFit ext op prs rows gs st =
      (⟨gs.foldl (fun acc p =>
          dinsert p.1 (ext.fit op.num_clusters (validMatrix prs rows p.2)) acc) st.kmeans,
        st.scales⟩, none) := by
  induction gs generalizing st with
  | nil => rfl
  | cons p rest ih =>
    obtain ⟨g, idxs⟩ := p
    have hne : idxs ≠ [] := h (g, idxs) (List.mem_cons_self _ _)
    simp only [estFit, if_neg hne, List.foldl_cons]
    exact ih _ (fun q hq => h q (List.mem_cons_of_mem _ hq))

theorem foldl_dinsert_mem {α β γ : Type} [DecidableEq α] (F : α × γ → β) (gs : List (α × γ))
    (acc : List (α × β)) (g : α) (x : γ) (hnd : (gs.map Prod.fst).Nodup) (hg : (g, x) ∈ gs) :
    dlookup g (gs.foldl (fun a p => dinsert p.1 (F p) a) acc) = some (F (g, x)) := by
  have hfold : gs.foldl (fun a p => dinsert p.1 (F p) a) acc =
      (gs.map (fun p => (p.1, F p))).foldl (fun a q => dinsert q.1 q.2 a) acc := by
    rw [List.foldl_map]
  rw [hfold, foldl_dinsert_rev]
  have hmem : ((g, x).1, F (g, x)) ∈ (gs.map (fun p => (p.1, F p))).reverse := by
    rw [List.mem_reverse]
    exact List.mem_map.mpr ⟨(g, x), hg, rfl⟩
  have hnd2 : ((gs.map (fun p => (p.1, F p))).reverse.map Prod.fst).Nodup := by
    rw [List.map_reverse, List.nodup_reverse, List.map_map]
    have hcomp : (Prod.fst ∘ fun p : α × γ => (p.1, F p)) = Prod.fst := rfl
    rw [hcomp]
    exact hnd
  rw [dlookup_eq_some_of_mem hmem hnd2]

theorem foldl_dinsert_notmem {α β γ : Type} [DecidableEq α] (F : α × γ → β) (gs : List (α × γ))
    (acc : List (α × β)) (g : α) (hg : g ∉ gs.map Prod.fst) :
    dlookup g (gs.foldl (fun a p => dinsert p.1 (F p) a) acc) = dlookup g acc := by
  have hfold : gs.foldl (fun a p => dinsert p.1 (F p) a) acc =
      (gs.map (fun p => (p.1, F p))).foldl (fun a q => dinsert q.1 q.2 a) acc := by
    rw [List.foldl_map]
  rw [hfold, foldl_dinsert_rev]
  have hnone : dlookup g (gs.map (fun p => (p.1, F p))).reverse = none := by
    rw [dlookup_eq_none_iff, List.map_reverse, List.map_map, List.mem_reverse]
    have hcomp : (Prod.fst ∘ fun p : α × γ => (p.1, F p)) = Prod.fst := rfl
    rw [hcomp]
    exact hg
  rw [hnone]

theorem dlookup_estScaleDict (ext : Ext) (op : KMeansOp) (st : OpState) (ex : Experiment)
    (c : String) :
    dlookup c (estScaleDict ext op st ex) =
      if c ∈ op.channels then some (estScaleFun ext op ex c) else dlookup c st.scales := by
  unfold estScaleDict freshScales
  rw [foldl_dinsert_rev, ← List.map_reverse, dlookup_map_self]
  by_cases hc : c ∈ op.channels
  · rw [if_pos (List.mem_reverse.mpr hc), if_pos hc]
  · rw [if_neg (fun hr => hc (List.mem_reverse.mp hr)), if_neg hc]

theorem lookupScales_estScaleDict (ext : Ext) (op : KMeansOp) (st : OpState) (ex : Experiment)
    (km : List (List Cell × KMModel)) :
    lookupScales ⟨km, estScaleDict ext op st ex⟩ op.channels =
      Except.ok (op.channels.map (estScaleFun ext op ex)) := by
  apply exMapM_ok
  intro c hc
  show (match dlookup c (estScaleDict ext op st ex) with
    | some s => Except.ok s
    | none => Except.error CFError.keyError) = _
  rw [dlookup_estScaleDict, if_pos hc]

theorem estimateFit_eq (ext : Ext) (op : KMeansOp) (st : OpState) (ex : Experiment) :
    estimateFit ext op st ex =
      (⟨(partitionIdx op.by_ ex.rows).foldl (fun acc p =>
           dinsert p.1 (ext.fit op.num_clusters
             (validMatrix (freshScales ext op ex) ex.rows p.2)) acc) st.kmeans,
        estScaleDict ext op st ex⟩, none) := by
  show ((match lookupScales ⟨st.kmeans, estScaleDict ext op st ex⟩ op.channels with
    | Except.error e => (⟨st.kmeans, estScaleDict ext op st ex⟩, some e)
    | Except.ok scs =>
      estFit ext op (op.channels.zip scs) ex.rows (partitionIdx op.by_ ex.rows)
        ⟨st.kmeans, estScaleDict ext op st ex⟩) : OpState × Option CFError) = _
  rw [lookupScales_estScaleDict]
  show estFit ext op (op.channels.zip (op.channels.map (estScaleFun ext op ex))) ex.rows
      (partitionIdx op.by_ ex.rows) ⟨st.kmeans, estScaleDict ext op st ex⟩ = _
  rw [zip_map_self]
  exact estFit_ok ext op _ ex.rows _ _ (partition_ne_nil op.by_ ex.rows)

theorem estimate_success_checks (ext : Ext) (op : KMeansOp) (st : OpState) (ex : Experiment)
    (h : (estimate ext op st (some ex) none).2 = none) :
    ¬ op.num_clusters < 2 ∧ sharedChecks op ex = none := by
  simp only [estimate] at h
  by_cases h2 : op.num_clusters < 2
  · rw [if_pos h2] at h
    simp at h
  · rw [if_neg h2] at h
    cases hc : sharedChecks op ex with
    | some e =>
      rw [hc] at h
      simp at h
    | none => exact ⟨h2, rfl⟩

theorem estimate_eq_fit (ext : Ext) (op : KMeansOp) (st : OpState) (ex : Experiment)
    (h2 : ¬ op.num_clusters < 2) (hc : sharedChecks op ex = none) :
    estimate ext op st (some ex) none = estimateFit ext op st ex := by
  simp only [estimate, if_neg h2, hc]
  rfl

/-! ### Validation helper lemmas -/

theorem checkBy_none (ex : Experiment) (bs : List String)
    (h : ∀ b ∈ bs, b ∈ ex.columns ∧ (uniqueCells ex b).length ≤ 100) :
    checkBy ex bs = none := by
  induction bs with
  | nil => rfl
  | cons b rest ih =>
    have hb := h b (List.mem_cons_self _ _)
    simp only [checkBy, if_pos hb.1, if_neg (Nat.not_lt.mpr hb.2)]
    exact ih (fun b' hb' => h b' (List.mem_cons_of_mem _ hb'))

theorem checkBy_first_card (ex : Experiment) (bs1 : List String) (b : String) (bs2 : List String)
    (h1 : ∀ b' ∈ bs1, b' ∈ ex.columns ∧ (uniqueCells ex b').length ≤ 100)
    (hb : b ∈ ex.columns) (hcard : 100 < (uniqueCells ex b).length) :
    checkBy ex (bs1 ++ b :: bs2) = some (CFError.opError (cardMsg b)) := by
  induction bs1 with
  | nil => simp [checkBy, if_pos hb, if_pos hcard]
  | cons b' rest ih =>
    have hb' := h1 b' (List.mem_cons_self _ _)
    simp only [List.cons_append, checkBy, if_pos hb'.1, if_neg (Nat.not_lt.mpr hb'.2)]
    exact ih (fun x hx => h1 x (List.mem_cons_of_mem _ hx))

theorem checkChannels_none (ex : Experiment) (cs : List String)
    (h : ∀ c ∈ cs, c ∈ ex.columns) : checkChannels ex cs = none := by
  induction cs with
  | nil => rfl
  | cons c rest ih =>
    simp only [checkChannels, if_pos (h c (List.mem_cons_self _ _))]
    exact ih (fun c' hc' => h c' (List.mem_cons_of_mem _ hc'))

theorem checkScaleKeys_none (op : KMeansOp) (l : List (String × String))
    (h : ∀ e ∈ l, e.1 ∈ op.channels) : checkScaleKeys op l = none := by
  induction l with
  | nil => rfl
  | cons e rest ih =>
    simp only [checkScaleKeys, if_pos (h e (List.mem_cons_self _ _))]
    exact ih (fun e' he' => h e' (List.mem_cons_of_mem _ he'))

theorem sharedChecks_eq_checkBy (op : KMeansOp) (ex : Experiment) (hch : ¬ op.channels = [])
    (h1 : checkChannels ex op.channels = none) (h2 : checkScaleKeys op op.scale = none) :
    sharedChecks op ex = checkBy ex op.by_ := by
  simp only [sharedChecks, if_neg hch, h1, h2]

theorem sharedChecks_none (op : KMeansOp) (ex : Experiment) (hch : ¬ op.channels = [])
    (h1 : ∀ c ∈ op.channels, c ∈ ex.columns) (h2 : ∀ e ∈ op.scale, e.1 ∈ op.channels)
    (h3 : ∀ b ∈ op.by_, b ∈ ex.columns ∧ (uniqueCells ex b).length ≤ 100) :
    sharedChecks op ex = none := by
  rw [sharedChecks_eq_checkBy op ex hch (checkChannels_none ex _ h1) (checkScaleKeys_none op _ h2)]
  exact checkBy_none ex _ h3

/-! ### Concrete instances used by the witnesses: the identity scale, a
factory returning it, and a deterministic stand-in for the sklearn fit
routine whose centroids are rows of the input data. -/

def idScale : Scale := ⟨fun q => some q, id⟩

def fitTake (k : ℕ) (xs : List (List ℚ)) : KMModel :=
  ⟨(List.range k).map (fun j => xs.getD j (xs.headD []))⟩

def extId : Ext := ⟨fun _ _ _ => idScale, "linear", fitTake⟩

def mkRow (ps : List (String × Cell)) : Row := fun c => (dlookup c ps).getD Cell.nan

/-! ## Claims -/

/-- C8: with `num_clusters < 2` (in particular 1), `estimate` fails with the
`CytoflowOpError` "num_clusters must be >= 2" before any scale or model
fitting, and the operation object — configuration and transient model/scale
storage — is returned exactly unchanged. -/
theorem c8_estimate_rejects_small_k (ext : Ext) (o : OpObj) (ex : Experiment)
    (subset : Option Subset) (hK : o.config.num_clusters < 2) :
    estimateM ext o (some ex) subset =
      (some (CFError.opError "num_clusters must be >= 2"), o) := by
  simp only [estimateM, estimate, if_pos hK]

/-- C8 witness: the spec's scenario `num_clusters = 1`. -/
theorem c8_estimate_rejects_small_k_witness :
    (1 : ℕ) < 2 ∧
      estimateM extId ⟨⟨"Clust", ["X"], [], 1, []⟩, ⟨[], []⟩⟩ (some emptyExperiment) none =
        (some (CFError.opError "num_clusters must be >= 2"),
         ⟨⟨"Clust", ["X"], [], 1, []⟩, ⟨[], []⟩⟩) :=
  ⟨by decide,
   c8_estimate_rejects_small_k extId ⟨⟨"Clust", ["X"], [], 1, []⟩, ⟨[], []⟩⟩
     emptyExperiment none (by decide)⟩

/-- C7: an `estimate` call whose subset filter is invalid (the query
raises) or selects zero rows fails with a typed cytoflow error (a
`CytoflowViewError` in the source) and the operation object is returned
unchanged — in particular no scale transform is stored and no model is
fitted. -/
theorem c7_estimate_rejects_bad_subset (ext : Ext) (o : OpObj) (ex : Experiment) (s : Subset)
    (hK : ¬ o.config.num_clusters < 2) (hchecks : sharedChecks o.config ex = none)
    (hbad : s.eval = none ∨ ∃ p, s.eval = some p ∧ (ex.rows.filter p).length = 0) :
    ∃ msg, estimateM ext o (some ex) (some s) = (some (CFError.viewError msg), o) := by
  simp only [estimateM, estimate, if_neg hK, hchecks]
  rcases hbad with hb | ⟨p, hp, hlen⟩
  · exact ⟨"Subset string \x27" ++ s.expr ++ "\x27 isn\x27t valid", by simp [resolveSubset, hb]⟩
  · exact ⟨"Subset string \x27" ++ s.expr ++ "\x27 returned no events",
      by simp [resolveSubset, hp, hlen]⟩

/-- C7 witness: an invalid subset expression on a tiny valid configuration. -/
theorem c7_estimate_rejects_bad_subset_witness :
    sharedChecks ⟨"Clust", ["X"], [], 2, []⟩ ⟨["X"], [], [], []⟩ = none ∧
      ∃ msg,
        estimateM extId ⟨⟨"Clust", ["X"], [], 2, []⟩, ⟨[], []⟩⟩ (some ⟨["X"], [], [], []⟩)
            (some ⟨"bad ==", none⟩) =
          (some (CFError.viewError msg), ⟨⟨"Clust", ["X"], [], 2, []⟩, ⟨[], []⟩⟩) :=
  ⟨by decide,
   c7_estimate_rejects_bad_subset extId ⟨⟨"Clust", ["X"], [], 2, []⟩, ⟨[], []⟩⟩
     ⟨["X"], [], [], []⟩ ⟨"bad ==", none⟩ (by decide) (by decide) (Or.inl rfl)⟩

/-- C6: validation of grouping-key cardinality.  If some grouping key `b`
(the first failing one) exists as a column but has more than 100 distinct
values, both `estimate` and `apply` fail with the CytoflowOpError
`cardMsg b` — `estimate` before fitting any scale or model (its storage is
returned untouched), `apply` before labelling anything — while grouping
keys that all exist with at most 100 distinct values pass the cardinality
validation (`checkBy`, the by-loop shared by both methods, reports no
error). -/
theorem c6_by_cardinality_check (op : KMeansOp) (ex : Experiment) :
    (∀ ext st bs1 b bs2, op.by_ = bs1 ++ b :: bs2 →
      (∀ b' ∈ bs1, b' ∈ ex.columns ∧ (uniqueCells ex b').length ≤ 100) →
      b ∈ ex.columns → 100 < (uniqueCells ex b).length →
      ¬ op.num_clusters < 2 → op.channels ≠ [] →
      checkChannels ex op.channels = none → checkScaleKeys op op.scale = none →
      op.name ≠ "" → op.name ∉ ex.columns →
      (estimate ext op st (some ex) none = (st, some (CFError.opError (cardMsg b))) ∧
       applyOp op st (some ex) = Except.error (CFError.opError (cardMsg b)))) ∧
    ((∀ b ∈ op.by_, b ∈ ex.columns ∧ (uniqueCells ex b).length ≤ 100) →
      checkBy ex op.by_ = none) := by
  constructor
  · intro ext st bs1 b bs2 hby h1 hb hcard hK hch hcc hsk hn1 hn2
    have hsc : sharedChecks op ex = some (CFError.opError (cardMsg b)) := by
      rw [sharedChecks_eq_checkBy op ex hch hcc hsk, hby]
      exact checkBy_first_card ex bs1 b bs2 h1 hb hcard
    constructor
    · simp only [estimate, if_neg hK, hsc]
    · simp only [applyOp, if_neg hn1, if_neg hn2, hsc, optErr_some, ebind_error]
  · exact checkBy_none ex op.by_

/-- C6 witness: the spec's scenario of a grouping key with 150 distinct
values (column "A"), and a key with 3 distinct values (column "B") that
passes the cardinality validation. -/
def exW6 : Experiment :=
  ⟨["X", "A", "B"],
   (List.range 150).map (fun i =>
     mkRow [("A", Cell.str (natDec i)), ("B", Cell.str (natDec (i % 3))), ("X", Cell.num 0)]),
   [], []⟩

set_option maxRecDepth 100000 in
theorem c6_by_cardinality_check_witness :
    100 < (uniqueCells exW6 "A").length ∧
      (estimate extId ⟨"Clust", ["X"], [], 2, ["A"]⟩ ⟨[], []⟩ (some exW6) none =
          (⟨[], []⟩, some (CFError.opError (cardMsg "A"))) ∧
        applyOp ⟨"Clust", ["X"], [], 2, ["A"]⟩ ⟨[], []⟩ (some exW6) =
          Except.error (CFError.opError (cardMsg "A"))) ∧
      checkBy exW6 ["B"] = none :=
  ⟨by decide,
   (c6_by_cardinality_check ⟨"Clust", ["X"], [], 2, ["A"]⟩ exW6).1 extId ⟨[], []⟩ [] "A" []
     rfl (by decide) (by decide) (by decide) (by decide) (by decide) (by decide) (by decide)
     (by decide) (by decide),
   (c6_by_cardinality_check ⟨"Clust", ["X"], [], 2, ["B"]⟩ exW6).2 (by decide)⟩

/-! ### `default_view` insertion lemma -/

theorem foldl_insdef_lookup (channels : List String) (scale0 : List (String × String))
    (dflt : String) (c : String) :
    dlookup c (channels.foldl
        (fun acc ch => if (dlookup ch acc).isSome then acc else dinsert ch dflt acc) scale0) =
      if c ∈ channels then some ((dlookup c scale0).getD dflt) else dlookup c scale0 := by
  induction channels generalizing scale0 with
  | nil => simp
  | cons a rest ih =>
    simp only [List.foldl_cons]
    by_cases hpres : (dlookup a scale0).isSome = true
    · rw [if_pos hpres, ih]
      by_cases hc : c = a
      · subst hc
        obtain ⟨v, hv⟩ := Option.isSome_iff_exists.mp hpres
        by_cases hcr : c ∈ rest <;> simp [hv, hcr]
      · simp [List.mem_cons, hc]
    · rw [if_neg hpres, ih]
      have hnone : dlookup a scale0 = none := by
        cases h' : dlookup a scale0 with
        | none => rfl
        | some v =>
          rw [h'] at hpres
          simp at hpres
      by_cases hc : c = a
      · subst hc
        by_cases hcr : c ∈ rest <;> simp [dlookup_dinsert_self, hnone, hcr]
      · rw [dlookup_dinsert_ne _ _ _ _ hc]
        simp [List.mem_cons, hc]

/-- C10: `default_view` called without an explicit `scale` argument works on
the operation's own scale dict in place: after the call, every viewed
channel is bound (missing ones to the process-wide default scale kind),
other keys are untouched, and whenever some viewed channel was missing the
operation's configuration has genuinely changed — the accessor is not
read-only. -/
theorem c10_default_view_mutates_scale (op : KMeansOp) (chArg : Option (List String))
    (dflt : String)
    (hv1 : ∀ c ∈ chArg.getD op.channels, c ∈ op.channels)
    (hv2 : ∀ e ∈ op.scale, e.1 ∈ op.channels) :
    (∀ c ∈ chArg.getD op.channels,
      dlookup c (default_view op chArg none dflt).2.scale =
        some ((dlookup c op.scale).getD dflt)) ∧
    (∀ c, c ∉ chArg.getD op.channels →
      dlookup c (default_view op chArg none dflt).2.scale = dlookup c op.scale) ∧
    ((∃ c ∈ chArg.getD op.channels, dlookup c op.scale = none) →
      (default_view op chArg none dflt).2 ≠ op) := by
  have hf1 : (chArg.getD op.channels).find? (fun c => decide (c ∉ op.channels)) = none := by
    rw [List.find?_eq_none]
    intro x hx
    simp [hv1 x hx]
  have hf2 : (op.scale.map Prod.fst).find? (fun c => decide (c ∉ op.channels)) = none := by
    rw [List.find?_eq_none]
    intro x hx
    obtain ⟨e, he, rfl⟩ := List.mem_map.mp hx
    simp [hv2 e he]
  have hsnd : (default_view op chArg none dflt).2 =
      ⟨op.name, op.channels,
       (chArg.getD op.channels).foldl
         (fun acc c => if (dlookup c acc).isSome then acc else dinsert c dflt acc) op.scale,
       op.num_clusters, op.by_⟩ := by
    simp only [default_view, Option.getD_none, Option.isSome_none, Bool.false_eq_true,
      if_false, hf1, hf2]
    simp only [apply_ite Prod.snd, ite_self]
  have hscale : (default_view op chArg none dflt).2.scale =
      (chArg.getD op.channels).foldl
        (fun acc c => if (dlookup c acc).isSome then acc else dinsert c dflt acc) op.scale := by
    rw [hsnd]
  refine ⟨?_, ?_, ?_⟩
  · intro c hc
    rw [hscale, foldl_insdef_lookup, if_pos hc]
  · intro c hc
    rw [hscale, foldl_insdef_lookup, if_neg hc]
  · rintro ⟨c, hc, hmiss⟩ heq
    have h1 : (default_view op chArg none dflt).2.scale = op.scale := by rw [heq]
    rw [hscale] at h1
    have h2 := congrArg (dlookup c) h1
    rw [foldl_insdef_lookup, if_pos hc, hmiss] at h2
    simp at h2

/-- C10 witness: viewing both channels of an operation whose scale dict
binds only "X" inserts the default for "Y" and changes the configuration. -/
theorem c10_default_view_mutates_scale_witness :
    dlookup "Y" (default_view ⟨"Clust", ["X", "Y"], [("X", "log")], 2, []⟩ none none
        "linear").2.scale = some "linear" ∧
      (default_view ⟨"Clust", ["X", "Y"], [("X", "log")], 2, []⟩ none none "linear").2 ≠
        ⟨"Clust", ["X", "Y"], [("X", "log")], 2, []⟩ :=
  ⟨by
    have h := (c10_default_view_mutates_scale ⟨"Clust", ["X", "Y"], [("X", "log")], 2, []⟩
      none "linear" (by decide) (by decide)).1 "Y" (by decide)
    simpa using h,
   (c10_default_view_mutates_scale ⟨"Clust", ["X", "Y"], [("X", "log")], 2, []⟩
      none "linear" (by decide) (by decide)).2.2 ⟨"Y", by decide, by decide⟩⟩

theorem partition_map_fst (by_ : List String) (rows : List Row) :
    (partitionIdx by_ rows).map Prod.fst = groupKeysOf by_ rows := by
  unfold partitionIdx
  rw [List.map_map]
  have hcomp : (Prod.fst ∘ fun k => (k, idxsOf by_ rows k)) = (id : List Cell → List Cell) := rfl
  rw [hcomp, List.map_id]

/-- C2 (amended): a successful re-run of `estimate` stores a freshly fitted
model under every group key of its own dataset — `apply` on the same keys
then reads only these — but group keys absent from the re-run's dataset
keep whatever binding (possibly a stale first-call model) the storage
already had: stale entries are not purged. -/
theorem c2_estimate_overwrites_own_groups (ext : Ext) (op : KMeansOp) (st : OpState)
    (ex : Experiment) (hsucc : (estimate ext op st (some ex) none).2 = none) :
    (∀ g idxs, (g, idxs) ∈ partitionIdx op.by_ ex.rows →
      dlookup g (estimate ext op st (some ex) none).1.kmeans =
        some (ext.fit op.num_clusters (validMatrix (freshScales ext op ex) ex.rows idxs))) ∧
    (∀ g, g ∉ groupKeysOf op.by_ ex.rows →
      dlookup g (estimate ext op st (some ex) none).1.kmeans = dlookup g st.kmeans) := by
  obtain ⟨h2, hc⟩ := estimate_success_checks ext op st ex hsucc
  rw [estimate_eq_fit ext op st ex h2 hc, estimateFit_eq]
  constructor
  · intro g idxs hg
    exact foldl_dinsert_mem
      (fun p => ext.fit op.num_clusters (validMatrix (freshScales ext op ex) ex.rows p.2))
      _ _ g idxs (partition_keys_nodup _ _) hg
  · intro g hg
    apply foldl_dinsert_notmem
    rw [partition_map_fst]
    exact hg

/-- The two datasets and configurations of the C2 counterexample: a first
`estimate` grouped by "A", a second by "B" on a different dataset. -/
def exC2a : Experiment :=
  ⟨["X", "A"],
   [mkRow [("A", Cell.str "a1"), ("X", Cell.num 1)],
    mkRow [("A", Cell.str "a2"), ("X", Cell.num 2)]], [], []⟩

def exC2b : Experiment :=
  ⟨["X", "B"],
   [mkRow [("B", Cell.str "b1"), ("X", Cell.num 3)],
    mkRow [("B", Cell.str "b2"), ("X", Cell.num 4)]], [], []⟩

def opC2a : KMeansOp := ⟨"Clust", ["X"], [], 2, ["A"]⟩

def opC2b : KMeansOp := ⟨"Clust", ["X"], [], 2, ["B"]⟩

/-- The model/scale storage after running `estimate` grouped by "A" on one
dataset and then grouped by "B" on another. -/
def stC2 : OpState :=
  (estimate extId opC2b (estimate extId opC2a ⟨[], []⟩ (some exC2a) none).1 (some exC2b) none).1

set_option maxRecDepth 8000 in
/-- C2 counterexample: after the second (successful) `estimate`, whose
groups are `["b1"]` and `["b2"]`, the storage still holds the model the
first call fitted for group `["a1"]` — a key that is not a group of the
second call — so the storage does not contain "exactly one model per group
of the second call and no entry from the first call". -/
theorem c2_counterexample :
    dlookup [Cell.str "a1"] stC2.kmeans = some ⟨[[1], [1]]⟩ ∧
      [Cell.str "a1"] ∉ groupKeysOf opC2b.by_ exC2b.rows ∧
      (estimate extId opC2b (estimate extId opC2a ⟨[], []⟩ (some exC2a) none).1
          (some exC2b) none).2 = none := by
  refine ⟨by decide, by decide, by decide⟩

set_option maxRecDepth 8000 in
/-- C2 witness: the amended claim at the counterexample's input — the
second call's own group "b1" reads the freshly fitted model, while the
stale key "a1" still reads exactly what the first call left in storage. -/
theorem c2_estimate_overwrites_own_groups_witness :
    (estimate extId opC2b (estimate extId opC2a ⟨[], []⟩ (some exC2a) none).1
        (some exC2b) none).2 = none ∧
      dlookup [Cell.str "b1"] stC2.kmeans =
        some (extId.fit opC2b.num_clusters
          (validMatrix (freshScales extId opC2b exC2b) exC2b.rows
            (idxsOf opC2b.by_ exC2b.rows [Cell.str "b1"]))) ∧
      dlookup [Cell.str "a1"] stC2.kmeans =
        dlookup [Cell.str "a1"] (estimate extId opC2a ⟨[], []⟩ (some exC2a) none).1.kmeans :=
  ⟨by decide,
   (c2_estimate_overwrites_own_groups extId opC2b
      (estimate extId opC2a ⟨[], []⟩ (some exC2a) none).1 exC2b (by decide)).1
     [Cell.str "b1"] (idxsOf opC2b.by_ exC2b.rows [Cell.str "b1"]) (by decide),
   (c2_estimate_overwrites_own_groups extId opC2b
      (estimate extId opC2a ⟨[], []⟩ (some exC2a) none).1 exC2b (by decide)).2
     [Cell.str "a1"] (by decide)⟩

/-! ### `apply` result characterization -/

theorem applyOp_ok_elim (op : KMeansOp) (st : OpState) (ex : Experiment) {e : Experiment}
    (h : applyOp op st (some ex) = Except.ok e) :
    ∃ a s,
      processGroups op st ex.rows (partitionIdx op.by_ ex.rows)
          (fun _ => nameNone op, statInit op ex) = Except.ok (a, s) ∧
        e = ⟨ex.columns ++ [op.name],
             ex.rows.enum.map (fun p => fun c =>
               if c = op.name then Cell.str (a p.1) else p.2 c),
             dinsert (op.name, "centers") s ex.statistics,
             ex.history ++ [op]⟩ := by
  simp only [applyOp] at h
  by_cases hn1 : op.name = ""
  · rw [if_pos hn1] at h
    simp at h
  · rw [if_neg hn1] at h
    by_cases hn2 : op.name ∈ ex.columns
    · rw [if_pos hn2] at h
      simp at h
    · rw [if_neg hn2] at h
      cases hsc : sharedChecks op ex with
      | some er =>
        rw [hsc] at h
        simp [optErr_some, ebind_error] at h
      | none =>
        rw [hsc] at h
        rw [optErr_none, ebind_ok] at h
        cases hpg : processGroups op st ex.rows (partitionIdx op.by_ ex.rows)
            (fun _ => nameNone op, statInit op ex) with
        | error er =>
          rw [hpg, ebind_error] at h
          simp at h
        | ok asg =>
          rw [hpg, ebind_ok] at h
          obtain ⟨a, s⟩ := asg
          simp only [Except.ok.injEq] at h
          exact ⟨a, s, rfl, h.symm⟩

theorem enum_map_getD (rows : List Row) (g : ℕ → Row → Row) (i : ℕ) (hi : i < rows.length) :
    (rows.enum.map (fun p => g p.1 p.2)).getD i defaultRow = g i (rows.getD i defaultRow) := by
  have hlen : i < (rows.enum.map (fun p => g p.1 p.2)).length := by
    rw [List.length_map, List.enum_length]
    exact hi
  rw [getD_eq_getElem _ _ _ hlen, List.getElem_map, List.getElem_enum,
    getD_eq_getElem _ _ _ hi]

theorem enum_map_length (rows : List Row) (g : ℕ → Row → Row) :
    (rows.enum.map (fun p => g p.1 p.2)).length = rows.length := by
  rw [List.length_map, List.enum_length]

theorem getD_out_of_range {α : Type} (l : List α) (i : ℕ) (d : α) (h : l.length ≤ i) :
    l.getD i d = d := by
  rw [List.getD_eq_getElem?_getD, List.getElem?_eq_none h]
  rfl

/-- C5: frame effects of the two methods.  `estimate` rebinds only the
transient model/scale storage and leaves the operation's configuration
intact, whatever its arguments.  A successful `apply` builds a fresh
experiment: the input's columns plus the new named column, the same number
of rows with every pre-existing column's cells unchanged, the statistics
dict with the "centers" entry stored, and the history with this
operation's configuration appended — the input dataset itself (a pure
value here, mirroring that the source never writes to it) is untouched. -/
theorem c5_frame_effects :
    (∀ ext (o : OpObj) exOpt subset, ((estimateM ext o exOpt subset).2).config = o.config) ∧
    (∀ (op : KMeansOp) (st : OpState) (ex : Experiment) (e : Experiment),
      applyOp op st (some ex) = Except.ok e →
      e.columns = ex.columns ++ [op.name] ∧
      e.rows.length = ex.rows.length ∧
      (∀ i c, c ≠ op.name → getCell e i c = getCell ex i c) ∧
      (∃ s, e.statistics = dinsert (op.name, "centers") s ex.statistics) ∧
      e.history = ex.history ++ [op]) := by
  constructor
  · intro ext o exOpt subset
    rfl
  · intro op st ex e h
    obtain ⟨a, s, hpg, he⟩ := applyOp_ok_elim op st ex h
    subst he
    refine ⟨rfl,
      enum_map_length ex.rows (fun j r => fun c' =>
        if c' = op.name then Cell.str (a j) else r c'),
      ?_, ⟨s, rfl⟩, rfl⟩
    intro i c hc
    unfold getCell
    by_cases hi : i < ex.rows.length
    · rw [enum_map_getD ex.rows (fun j r => fun c' =>
        if c' = op.name then Cell.str (a j) else r c') i hi]
      simp only [if_neg hc]
    · rw [getD_out_of_range _ i defaultRow
          (by simp only [List.length_map, List.enum_length]; omega),
        getD_out_of_range _ i defaultRow (by omega)]

theorem ok_of_isOkE {r : Except CFError Experiment} (h : isOkE r = true) :
    r = Except.ok (okD r) := by
  cases r with
  | ok e => rfl
  | error er => simp [isOkE] at h

/-- C5 witness: a successful apply on a small dataset. -/
def exW1 : Experiment :=
  ⟨["X"],
   [mkRow [("X", Cell.num 0)], mkRow [("X", Cell.num 10)],
    mkRow [("X", Cell.nan)], mkRow [("X", Cell.num 1)]], [], []⟩

def opW : KMeansOp := ⟨"Clust", ["X"], [], 2, []⟩

/-- The storage produced by a successful `estimate` of `opW` on `exW1`. -/
def stW : OpState := (estimate extId opW ⟨[], []⟩ (some exW1) none).1

set_option maxRecDepth 8000 in
theorem c5_frame_effects_witness :
    ((estimateM extId ⟨opW, ⟨[], []⟩⟩ (some exW1) none).2).config = opW ∧
      isOkE (applyOp opW stW (some exW1)) = true ∧
      (okD (applyOp opW stW (some exW1))).columns = exW1.columns ++ [opW.name] ∧
      (okD (applyOp opW stW (some exW1))).history = exW1.history ++ [opW] :=
  ⟨(c5_frame_effects.1 extId ⟨opW, ⟨[], []⟩⟩ (some exW1) none : _),
   by decide,
   by
    have h := (c5_frame_effects.2 opW stW exW1 (okD (applyOp opW stW (some exW1)))
      (ok_of_isOkE (by decide))).1
    exact h,
   by
    have h := (c5_frame_effects.2 opW stW exW1 (okD (applyOp opW stW (some exW1)))
      (ok_of_isOkE (by decide))).2.2.2.2
    exact h⟩

/-- C3: `apply` is idempotent on a post-`estimate` operation: the source's
`apply` writes to no attribute of the operation object, so a second call
on the returned object with the same input dataset returns the identical
result — in particular the identical assignment column and the identical
centers statistic. -/
theorem c3_apply_idempotent (ext : Ext) (o : OpObj) (ex : Experiment) (subset : Option Subset)
    (hest : (estimateM ext o (some ex) subset).1 = none)
    (hok : isOkE ((applyM (estimateM ext o (some ex) subset).2 (some ex)).1) = true) :
    (applyM ((applyM (estimateM ext o (some ex) subset).2 (some ex)).2) (some ex)).1 =
        (applyM (estimateM ext o (some ex) subset).2 (some ex)).1 ∧
      assignCol (okD ((applyM ((applyM (estimateM ext o (some ex) subset).2 (some ex)).2)
            (some ex)).1)) o.config.name =
        assignCol (okD ((applyM (estimateM ext o (some ex) subset).2 (some ex)).1))
          o.config.name ∧
      centersOf (okD ((applyM ((applyM (estimateM ext o (some ex) subset).2 (some ex)).2)
            (some ex)).1)) o.config.name =
        centersOf (okD ((applyM (estimateM ext o (some ex) subset).2 (some ex)).1))
          o.config.name :=
  ⟨rfl, rfl, rfl⟩

set_option maxRecDepth 8000 in
theorem c3_apply_idempotent_witness :
    (estimateM extId ⟨opW, ⟨[], []⟩⟩ (some exW1) none).1 = none ∧
      (applyM ((applyM (estimateM extId ⟨opW, ⟨[], []⟩⟩ (some exW1) none).2 (some exW1)).2)
          (some exW1)).1 =
        (applyM (estimateM extId ⟨opW, ⟨[], []⟩⟩ (some exW1) none).2 (some exW1)).1 :=
  ⟨by decide,
   (c3_apply_idempotent extId ⟨opW, ⟨[], []⟩⟩ exW1 none (by decide) (by decide)).1⟩

/-! ### Per-group apply-step characterization -/

/-- The channel/scale pairs `apply` reads back from storage. -/
def stPairs (op : KMeansOp) (st : OpState) : List (String × Scale) :=
  op.channels.zip (op.channels.map (fun c => (dlookup c st.scales).getD dummyScale))

theorem stPairs_length (op : KMeansOp) (st : OpState) :
    (stPairs op st).length = op.channels.length := by
  unfold stPairs
  rw [zip_map_self, List.length_map]

/-- The statistic writes of one group, as an explicit list. -/
def cwList (op : KMeansOp) (prs : List (String × Scale)) (m : KMModel) (g : List Cell) :
    List (StatKey × Val) :=
  ((List.range op.num_clusters).map (fun c =>
    prs.enum.map (fun ics =>
      (((g, c + 1, ics.2.1) : StatKey),
       (some (ics.2.2.inv ((m.centers.getD c []).getD ics.1 0)) : Val))))).flatten

theorem centerWrites_eq (op : KMeansOp) (prs : List (String × Scale)) (m : KMModel)
    (g : List Cell) (hK : m.centers.length = op.num_clusters)
    (hlen : ∀ cen ∈ m.centers, prs.length ≤ cen.length) :
    centerWrites op prs m g = Except.ok (cwList op prs m g) := by
  unfold centerWrites cwList
  rw [exMapM_ok _ (fun c =>
      prs.enum.map (fun ics =>
        (((g, c + 1, ics.2.1) : StatKey),
         (some (ics.2.2.inv ((m.centers.getD c []).getD ics.1 0)) : Val)))) _ ?helem, ebind_ok]
  case helem =>
    intro c hc
    apply exMapM_ok
    intro ics hics
    obtain ⟨i, x⟩ := ics
    have hmem := List.mem_enum hics
    have hcK : c < m.centers.length := by
      rw [hK]
      exact List.mem_range.mp hc
    have hleni : i < m.centers[c].length :=
      lt_of_lt_of_le hmem.1 (hlen _ (List.getElem_mem hcK))
    have hco : (m.centers.get? c).bind (fun cen => cen.get? i) =
        some ((m.centers.getD c []).getD i 0) := by
      rw [getD_eq_getElem m.centers c [] hcK, getD_eq_getElem _ i 0 hleni,
        List.get?_eq_getElem?, List.getElem?_eq_getElem hcK]
      show m.centers[c].get? i = _
      rw [List.get?_eq_getElem?, List.getElem?_eq_getElem hleni]
    simp only [hco]

theorem writeCenters_eq (op : KMeansOp) (prs : List (String × Scale)) (m : KMModel)
    (g : List Cell) (s : Stat) (hK : m.centers.length = op.num_clusters)
    (hlen : ∀ cen ∈ m.centers, prs.length ≤ cen.length) :
    writeCenters op prs m g s =
      Except.ok ((cwList op prs m g).foldl (fun acc kv => statSet kv.1 kv.2 acc) s) := by
  unfold writeCenters
  rw [centerWrites_eq op prs m g hK hlen, ebind_ok]

/-- One successful step of the apply loop: labels written at the group's
positions, centroid statistics recorded, recursion on the remaining
groups. -/
theorem processGroups_cons (op : KMeansOp) (st : OpState) (rows : List Row) (g : List Cell)
    (idxs : List ℕ) (rest : List (List Cell × List ℕ)) (acc : (ℕ → String) × Stat)
    (hne : idxs ≠ [])
    (hscales : ∀ c ∈ op.channels, (dlookup c st.scales).isSome = true)
    {m : KMModel} (hm : dlookup g st.kmeans = some m)
    (hK : m.centers.length = op.num_clusters)
    (hlen : ∀ cen ∈ m.centers, op.channels.length ≤ cen.length) :
    processGroups op st rows ((g, idxs) :: rest) acc =
      processGroups op st rows rest
        (setMany acc.1 (idxs.map (fun i =>
           (i, rowLabel op (stPairs op st) m (rows.getD i defaultRow)))),
         (cwList op (stPairs op st) m g).foldl (fun a kv => statSet kv.1 kv.2 a) acc.2) := by
  have hlen' : ∀ cen ∈ m.centers, (stPairs op st).length ≤ cen.length := by
    intro cen hc
    rw [stPairs_length]
    exact hlen cen hc
  simp only [processGroups, if_neg hne, lookupScales_ok st op.channels hscales, ebind_ok,
    keyLookup_some hm]
  rw [show op.channels.zip (op.channels.map (fun c => (dlookup c st.scales).getD dummyScale)) =
    stPairs op st from rfl]
  rw [writeCenters_eq op (stPairs op st) m g acc.2 hK hlen', ebind_ok]

theorem processGroups_keyError (op : KMeansOp) (st : OpState) (rows : List Row)
    (gs : List (List Cell × List ℕ))
    (hscales : ∀ c ∈ op.channels, (dlookup c st.scales).isSome = true)
    (hne : ∀ p ∈ gs, p.2 ≠ [])
    (hwf : ∀ p ∈ gs, wfOpt op (dlookup p.1 st.kmeans) = true)
    (hmiss : ∃ p ∈ gs, dlookup p.1 st.kmeans = none) :
    ∀ acc, processGroups op st rows gs acc = Except.error CFError.keyError := by
  induction gs with
  | nil => simp at hmiss
  | cons p rest ih =>
    intro acc
    obtain ⟨g, idxs⟩ := p
    have hne0 : idxs ≠ [] := hne _ (List.mem_cons_self _ _)
    cases hm : dlookup g st.kmeans with
    | none =>
      simp only [processGroups, if_neg hne0, lookupScales_ok st op.channels hscales, ebind_ok,
        keyLookup_none hm, ebind_error]
    | some m =>
      have hwfm : wfOpt op (dlookup g st.kmeans) = true := hwf _ (List.mem_cons_self _ _)
      rw [hm] at hwfm
      simp only [wfOpt, Bool.and_eq_true, beq_iff_eq, List.all_eq_true] at hwfm
      obtain ⟨hK, hlen⟩ := hwfm
      rw [processGroups_cons op st rows g idxs rest acc hne0 hscales hm hK
        (fun cen hc => le_of_eq (hlen cen hc).symm)]
      apply ih (fun q hq => hne q (List.mem_cons_of_mem _ hq))
        (fun q hq => hwf q (List.mem_cons_of_mem _ hq))
      obtain ⟨q, hq, hqn⟩ := hmiss
      rcases List.mem_cons.mp hq with hq0 | hq0
      · rw [hq0] at hqn
        rw [show ((g, idxs) : List Cell × List ℕ).1 = g from rfl] at hqn
        rw [hqn] at hm
        exact absurd hm (by simp)
      · exact ⟨q, hq0, hqn⟩

/-- C4: when the dataset handed to `apply` contains a group-key combination
with no fitted model in storage (and validation otherwise passes, the
stored scales cover the channels, and every stored model is shaped as
`estimate` leaves it), `apply` aborts with Python's uncaught KeyError at
the `self._kmeans[group]` lookup — it neither labels that group's rows
`{name}_None` nor raises a typed cytoflow configuration error. -/
theorem c4_missing_group_keyerror (op : KMeansOp) (st : OpState) (ex : Experiment)
    (hn1 : op.name ≠ "") (hn2 : op.name ∉ ex.columns)
    (hsc : sharedChecks op ex = none)
    (hscales : ∀ c ∈ op.channels, (dlookup c st.scales).isSome = true)
    (hwf : ∀ k ∈ groupKeysOf op.by_ ex.rows, wfOpt op (dlookup k st.kmeans) = true)
    (hmiss : ∃ k ∈ groupKeysOf op.by_ ex.rows, dlookup k st.kmeans = none) :
    applyOp op st (some ex) = Except.error CFError.keyError := by
  simp only [applyOp, if_neg hn1, if_neg hn2, hsc, optErr_none, ebind_ok]
  rw [processGroups_keyError op st ex.rows (partitionIdx op.by_ ex.rows) hscales
    (partition_ne_nil op.by_ ex.rows) ?hwf ?hmiss _, ebind_error]
  case hwf =>
    intro p hp
    obtain ⟨k, hk, rfl⟩ := List.mem_map.mp hp
    exact hwf k hk
  case hmiss =>
    obtain ⟨k, hk, hkn⟩ := hmiss
    exact ⟨(k, idxsOf op.by_ ex.rows k), List.mem_map.mpr ⟨k, hk, rfl⟩, hkn⟩

/-- C4 witness: `estimate` fitted groups "a1"/"a2" (dataset `exC2a`); the
apply-time dataset adds the unseen group "a3". -/
def exC4 : Experiment :=
  ⟨["X", "A"],
   [mkRow [("A", Cell.str "a1"), ("X", Cell.num 5)],
    mkRow [("A", Cell.str "a3"), ("X", Cell.num 6)]], [], []⟩

set_option maxRecDepth 8000 in
theorem c4_missing_group_keyerror_witness :
    (∃ k ∈ groupKeysOf opC2a.by_ exC4.rows,
      dlookup k (estimate extId opC2a ⟨[], []⟩ (some exC2a) none).1.kmeans = none) ∧
      applyOp opC2a (estimate extId opC2a ⟨[], []⟩ (some exC2a) none).1 (some exC4) =
        Except.error CFError.keyError :=
  ⟨by decide,
   c4_missing_group_keyerror opC2a (estimate extId opC2a ⟨[], []⟩ (some exC2a) none).1 exC4
     (by decide) (by decide) (by decide) (by decide) (by decide) (by decide)⟩

/-! ### Label correctness machinery (C1) -/

/-- The scale transform `apply` reads from storage for one channel. -/
def storedScale (st : OpState) (ch : String) : Scale :=
  (dlookup ch st.scales).getD dummyScale

theorem stPairs_eq (op : KMeansOp) (st : OpState) :
    stPairs op st = op.channels.map (fun c => (c, storedScale st c)) := by
  unfold stPairs storedScale
  rw [zip_map_self]

theorem stPairs_map_fst (op : KMeansOp) (st : OpState) :
    (stPairs op st).map Prod.fst = op.channels := by
  rw [stPairs_eq, List.map_map]
  have hcomp : (Prod.fst ∘ fun c => (c, storedScale st c)) = (id : String → String) := rfl
  rw [hcomp, List.map_id]

theorem length_catMap {α β : Type} (f : α → List β) (l : List α) :
    (catMap f l).length = (l.map (fun a => (f a).length)).sum := by
  induction l with
  | nil => rfl
  | cons a l ih => simp [catMap, List.length_append, ih]

theorem mem_catMap {α β : Type} {f : α → List β} {l : List α} {b : β} :
    b ∈ catMap f l ↔ ∃ a ∈ l, b ∈ f a := by
  induction l with
  | nil => simp [catMap]
  | cons a l ih => simp [catMap, List.mem_append, ih]

theorem statKeys_nil (op : KMeansOp) (ex : Experiment) (hby : op.by_ = []) :
    statKeys op ex =
      catMap (fun c => op.channels.map (fun ch => (([], c + 1, ch) : StatKey)))
        (List.range op.num_clusters) := by
  unfold statKeys
  rw [hby]
  simp [listProd, catMap]

theorem statInit_length_nil (op : KMeansOp) (ex : Experiment) (hby : op.by_ = []) :
    (statInit op ex).length = op.num_clusters * op.channels.length := by
  unfold statInit
  rw [List.length_map, statKeys_nil op ex hby, length_catMap]
  have h1 : (List.range op.num_clusters).map (fun c =>
      (op.channels.map (fun ch => (([], c + 1, ch) : StatKey))).length) =
      (List.range op.num_clusters).map (Function.const ℕ op.channels.length) :=
    List.map_congr_left (fun c _ => List.length_map _ _)
  rw [h1, List.map_const, List.length_range, List.sum_replicate, smul_eq_mul]

theorem mem_statKeys_nil (op : KMeansOp) (ex : Experiment) (key : StatKey)
    (hby : op.by_ = []) :
    key ∈ statKeys op ex ↔
      ∃ c, c < op.num_clusters ∧ ∃ ch ∈ op.channels, key = ([], c + 1, ch) := by
  rw [statKeys_nil op ex hby, mem_catMap]
  constructor
  · rintro ⟨c, hc, hkey⟩
    obtain ⟨ch, hch, rfl⟩ := List.mem_map.mp hkey
    exact ⟨c, List.mem_range.mp hc, ch, hch, rfl⟩
  · rintro ⟨c, hc, ch, hch, rfl⟩
    exact ⟨c, List.mem_range.mpr hc, List.mem_map.mpr ⟨ch, hch, rfl⟩⟩

/-! ### The single implicit group when there are no grouping keys -/

theorem rowKey_nil (r : Row) : rowKey [] r = some [] := rfl

theorem filterMap_rowKey_nil (rows : List Row) :
    rows.filterMap (rowKey []) = List.replicate rows.length [] := by
  induction rows with
  | nil => rfl
  | cons r rows ih =>
    simp [List.filterMap_cons, rowKey_nil, ih, List.replicate_succ]

theorem dedup_replicate_nil : ∀ n : ℕ, n ≠ 0 →
    (List.replicate n ([] : List Cell)).dedup = [[]] := by
  intro n
  induction n with
  | zero => intro h; exact absurd rfl h
  | succ n ih =>
    intro _
    by_cases hn : n = 0
    · subst hn
      rfl
    · rw [List.replicate_succ, List.dedup_cons_of_mem (List.mem_replicate.mpr ⟨hn, rfl⟩),
        ih hn]

theorem groupKeysOf_nil (rows : List Row) (h : rows ≠ []) : groupKeysOf [] rows = [[]] := by
  unfold groupKeysOf
  rw [filterMap_rowKey_nil, dedup_replicate_nil rows.length
    (fun hl => h (List.length_eq_zero.mp hl))]

theorem idxsOf_nil (rows : List Row) : idxsOf [] rows [] = List.range rows.length := by
  unfold idxsOf
  rw [List.filter_eq_self]
  intro i _
  simp [rowKey_nil]

theorem partition_nil (rows : List Row) (h : rows ≠ []) :
    partitionIdx [] rows = [([], List.range rows.length)] := by
  unfold partitionIdx
  rw [groupKeysOf_nil rows h]
  simp [idxsOf_nil]

/-! ### Statistic fold characterization -/

theorem foldl_statSet_length (ws : List (StatKey × Val)) : ∀ s : Stat,
    (ws.foldl (fun acc kv => statSet kv.1 kv.2 acc) s).length = s.length := by
  induction ws with
  | nil => intro s; rfl
  | cons kv rest ih =>
    intro s
    rw [List.foldl_cons, ih]
    unfold statSet
    rw [List.length_map]

theorem foldl_statSet_map : ∀ writes : List (StatKey × Val), (writes.map Prod.fst).Nodup →
    ∀ s : Stat, writes.foldl (fun acc kv => statSet kv.1 kv.2 acc) s =
      s.map (fun e =>
        match dlookup e.1 writes with
        | some v => (e.1, v)
        | none => e) := by
  intro writes
  induction writes with
  | nil =>
    intro _ s
    have hfun : (fun (e : StatKey × Val) =>
        match dlookup e.1 ([] : List (StatKey × Val)) with
        | some v => (e.1, v)
        | none => e) = fun e => e := rfl
    rw [List.foldl_nil, hfun, List.map_id']
  | cons kv rest ih =>
    intro hnd s
    obtain ⟨k, v⟩ := kv
    simp only [List.map_cons, List.nodup_cons] at hnd
    rw [List.foldl_cons]
    show rest.foldl (fun acc kv' => statSet kv'.1 kv'.2 acc) (statSet k v s) = _
    rw [ih hnd.2]
    unfold statSet
    rw [List.map_map]
    apply List.map_congr_left
    intro e _
    have hkn : dlookup k rest = none := dlookup_eq_none_iff.mpr hnd.1
    by_cases he : e.1 = k
    · simp [Function.comp, if_pos he, dlookup, hkn, he]
    · have hke : ¬(k = e.1) := fun hc => he hc.symm
      simp [Function.comp, if_neg he, dlookup, hke]

/-! ### `cwList` keys and lookups -/

theorem nodup_enum (prs : List (String × Scale)) : prs.enum.Nodup :=
  List.Nodup.of_map Prod.fst (by rw [List.enum_map_fst]; exact List.nodup_range _)

theorem cwList_keys (op : KMeansOp) (prs : List (String × Scale)) (m : KMModel)
    (g : List Cell) :
    (cwList op prs m g).map Prod.fst =
      ((List.range op.num_clusters).map (fun c =>
        prs.enum.map (fun ics => ((g, c + 1, ics.2.1) : StatKey)))).flatten := by
  unfold cwList
  rw [List.map_flatten, List.map_map]
  apply congrArg List.flatten
  apply List.map_congr_left
  intro c _
  show List.map Prod.fst (prs.enum.map (fun ics =>
    (((g, c + 1, ics.2.1) : StatKey),
     (some (ics.2.2.inv ((m.centers.getD c []).getD ics.1 0)) : Val)))) =
    prs.enum.map (fun ics => ((g, c + 1, ics.2.1) : StatKey))
  rw [List.map_map]
  rfl

theorem cwList_keys_nodup (op : KMeansOp) (prs : List (String × Scale)) (m : KMModel)
    (g : List Cell) (hnd : (prs.map Prod.fst).Nodup) :
    ((cwList op prs m g).map Prod.fst).Nodup := by
  rw [cwList_keys, List.nodup_flatten]
  constructor
  · intro l hl
    obtain ⟨c, _, rfl⟩ := List.mem_map.mp hl
    apply List.Nodup.map_on ?_ (nodup_enum prs)
    rintro ⟨i, x⟩ hx ⟨j, y⟩ hy hxy
    obtain ⟨hilt, hxe⟩ := List.mem_enum hx
    obtain ⟨hjlt, hye⟩ := List.mem_enum hy
    have hx1 : x.1 = y.1 := congrArg (fun t : StatKey => t.2.2) hxy
    have hilt2 : i < (prs.map Prod.fst).length := by
      rw [List.length_map]
      exact hilt
    have hjlt2 : j < (prs.map Prod.fst).length := by
      rw [List.length_map]
      exact hjlt
    have hmap : (prs.map Prod.fst)[i] = (prs.map Prod.fst)[j] := by
      rw [List.getElem_map, List.getElem_map, ← hxe, ← hye]
      exact hx1
    have hij : i = j := (List.Nodup.getElem_inj_iff hnd).mp hmap
    subst hij
    rw [hxe, hye]
  · rw [List.pairwise_map]
    apply List.Pairwise.imp ?_ (List.pairwise_lt_range op.num_clusters)
    intro c c' hlt key hk hk'
    obtain ⟨ics, _, rfl⟩ := List.mem_map.mp hk
    obtain ⟨ics', _, heq⟩ := List.mem_map.mp hk'
    have hcc : c' + 1 = c + 1 := congrArg (fun t : StatKey => t.2.1) heq
    omega

theorem mem_cwList (op : KMeansOp) (prs : List (String × Scale)) (m : KMModel)
    (g : List Cell) (c i : ℕ) (hc : c < op.num_clusters) (hi : i < prs.length) :
    (((g, c + 1, (prs[i]).1) : StatKey),
      (some ((prs[i]).2.inv ((m.centers.getD c []).getD i 0)) : Val)) ∈
      cwList op prs m g := by
  unfold cwList
  rw [List.mem_flatten]
  refine ⟨prs.enum.map (fun ics =>
    (((g, c + 1, ics.2.1) : StatKey),
     (some (ics.2.2.inv ((m.centers.getD c []).getD ics.1 0)) : Val))), ?_, ?_⟩
  · exact List.mem_map.mpr ⟨c, List.mem_range.mpr hc, rfl⟩
  · have hie : i < prs.enum.length := by
      rw [List.enum_length]
      exact hi
    refine List.mem_map.mpr ⟨(i, prs[i]), ?_, rfl⟩
    have hpe : prs.enum[i] = (i, prs[i]) := List.getElem_enum _ _ _
    rw [← hpe]
    exact List.getElem_mem hie

theorem dlookup_cwList (op : KMeansOp) (st : OpState) (m : KMModel) (g : List Cell)
    (hnd : op.channels.Nodup) (c i : ℕ) (hc : c < op.num_clusters)
    (hi : i < op.channels.length) :
    dlookup ((g, c + 1, op.channels[i]) : StatKey) (cwList op (stPairs op st) m g) =
      some (some ((storedScale st (op.channels[i])).inv
        ((m.centers.getD c []).getD i 0))) := by
  have hip : i < (stPairs op st).length := by
    rw [stPairs_length]
    exact hi
  have hpe : (stPairs op st)[i] = (op.channels[i], storedScale st (op.channels[i])) := by
    rw [List.getElem_of_eq (stPairs_eq op st) hip, List.getElem_map]
  have hmem := mem_cwList op (stPairs op st) m g c i hc hip
  rw [hpe] at hmem
  exact dlookup_eq_some_of_mem hmem
    (cwList_keys_nodup op (stPairs op st) m g (by rw [stPairs_map_fst]; exact hnd))

theorem inv_scaledVal_mem (ex : Experiment) (ch : String) (sc : Scale)
    (hid : ∀ q s', sc.f q = some s' → sc.inv s' = q) :
    ∀ a ∈ scaledValsOf ex ch sc, sc.inv a ∈ chanVals ex ch := by
  intro a ha
  obtain ⟨r, hr, hsome⟩ := List.mem_filterMap.mp ha
  unfold chanVals
  rw [List.mem_filterMap]
  cases hcell : r ch with
  | num q =>
    rw [hcell] at hsome
    have hf : sc.f q = some a := hsome
    refine ⟨r, hr, ?_⟩
    rw [hcell, hid q a hf]
  | nan =>
    rw [hcell] at hsome
    exact absurd hsome (by simp [scaleApp])
  | str s =>
    rw [hcell] at hsome
    exact absurd hsome (by simp [scaleApp])

/-- C9: with no grouping keys, a stored model whose `num_clusters`
centroids have one coordinate per channel, stored scales covering the
(distinct) channels, and the external guarantees the excluded collaborators
provide — each centroid coordinate lies within the range of the scaled
channel data (a k-means invariant: centroids are convex combinations of
data points), the stored inverse scale is monotone and inverts the forward
scale — a successful `apply` stores a "centers" statistic with exactly
`num_clusters × |channels|` entries, one per (1-based cluster, channel)
pair, each holding the inverse-scaled centroid coordinate of the stored
model, a (finite) rational lying within the observed range of its
channel. -/
theorem c9_centers_stat (op : KMeansOp) (st : OpState) (ex : Experiment) (m : KMModel)
    (hby : op.by_ = []) (hrows : ex.rows ≠ [])
    (hn1 : op.name ≠ "") (hn2 : op.name ∉ ex.columns) (hsc : sharedChecks op ex = none)
    (hch : op.channels.Nodup)
    (hscales : ∀ c ∈ op.channels, (dlookup c st.scales).isSome = true)
    (hm : dlookup [] st.kmeans = some m)
    (hK : m.centers.length = op.num_clusters)
    (hlen : ∀ cen ∈ m.centers, cen.length = op.channels.length)
    (hcent : ∀ c, c < op.num_clusters → ∀ i, i < op.channels.length →
      ∃ lo ∈ scaledValsOf ex (op.channels.getD i "") (storedScale st (op.channels.getD i "")),
      ∃ hi2 ∈ scaledValsOf ex (op.channels.getD i "") (storedScale st (op.channels.getD i "")),
        lo ≤ (m.centers.getD c []).getD i 0 ∧ (m.centers.getD c []).getD i 0 ≤ hi2)
    (hmono : ∀ ch ∈ op.channels, ∀ x y : ℚ, x ≤ y →
      (storedScale st ch).inv x ≤ (storedScale st ch).inv y)
    (hid : ∀ ch ∈ op.channels, ∀ q s', (storedScale st ch).f q = some s' →
      (storedScale st ch).inv s' = q) :
    isOkE (applyOp op st (some ex)) = true ∧
    ∃ S : Stat, centersOf (okD (applyOp op st (some ex))) op.name = some S ∧
      S.length = op.num_clusters * op.channels.length ∧
      ∀ e ∈ S, ∃ c, c < op.num_clusters ∧ ∃ i, i < op.channels.length ∧
        e.1 = ([], c + 1, op.channels.getD i "") ∧
        e.2 = some ((storedScale st (op.channels.getD i "")).inv
          ((m.centers.getD c []).getD i 0)) ∧
        ∃ lo ∈ chanVals ex (op.channels.getD i ""),
        ∃ hi2 ∈ chanVals ex (op.channels.getD i ""),
          lo ≤ (storedScale st (op.channels.getD i "")).inv
            ((m.centers.getD c []).getD i 0) ∧
          (storedScale st (op.channels.getD i "")).inv
            ((m.centers.getD c []).getD i 0) ≤ hi2 := by
  have hn : ex.rows.length ≠ 0 := fun h0 => hrows (List.length_eq_zero.mp h0)
  have hpart : partitionIdx op.by_ ex.rows = [([], List.range ex.rows.length)] := by
    rw [hby, partition_nil ex.rows hrows]
  have hrange_ne : List.range ex.rows.length ≠ [] := by
    intro h0
    rw [List.range_eq_nil] at h0
    exact hn h0
  have hlen' : ∀ cen ∈ m.centers, op.channels.length ≤ cen.length :=
    fun cen hc => le_of_eq (hlen cen hc).symm
  have hstep := processGroups_cons op st ex.rows [] (List.range ex.rows.length) []
    (fun _ => nameNone op, statInit op ex) hrange_ne hscales hm hK hlen'
  have hrun : processGroups op st ex.rows (partitionIdx op.by_ ex.rows)
      (fun _ => nameNone op, statInit op ex) =
      Except.ok
        (setMany (fun _ => nameNone op) ((List.range ex.rows.length).map (fun i =>
           (i, rowLabel op (stPairs op st) m (ex.rows.getD i defaultRow)))),
         (cwList op (stPairs op st) m []).foldl (fun a kv => statSet kv.1 kv.2 a)
           (statInit op ex)) := by
    rw [hpart, hstep]
    rfl
  have happ : applyOp op st (some ex) = Except.ok
      ⟨ex.columns ++ [op.name],
       ex.rows.enum.map (fun p => fun c =>
         if c = op.name then
           Cell.str (setMany (fun _ => nameNone op) ((List.range ex.rows.length).map (fun i =>
             (i, rowLabel op (stPairs op st) m (ex.rows.getD i defaultRow)))) p.1)
         else p.2 c),
       dinsert (op.name, "centers")
         ((cwList op (stPairs op st) m []).foldl (fun a kv => statSet kv.1 kv.2 a)
           (statInit op ex)) ex.statistics,
       ex.history ++ [op]⟩ := by
    simp only [applyOp, if_neg hn1, if_neg hn2, hsc, optErr_none, ebind_ok, hrun]
  refine ⟨by rw [happ]; rfl,
    (cwList op (stPairs op st) m []).foldl (fun a kv => statSet kv.1 kv.2 a)
      (statInit op ex), ?_, ?_, ?_⟩
  · rw [happ]
    show dlookup (op.name, "centers") (dinsert (op.name, "centers") _ ex.statistics) = _
    rw [dlookup_dinsert_self]
  · rw [foldl_statSet_length, statInit_length_nil op ex hby]
  · intro e he
    have hnd := cwList_keys_nodup op (stPairs op st) m []
      (by rw [stPairs_map_fst]; exact hch)
    rw [foldl_statSet_map _ hnd] at he
    obtain ⟨e0, he0, heq⟩ := List.mem_map.mp he
    obtain ⟨key, hkey, hke0⟩ := List.mem_map.mp he0
    obtain ⟨c, hc, ch, hch_mem, hkeq⟩ := (mem_statKeys_nil op ex key hby).mp hkey
    obtain ⟨i, hi, hchi⟩ := List.mem_iff_getElem.mp hch_mem
    have hgetD : op.channels.getD i "" = ch := by
      rw [getD_eq_getElem _ _ _ hi, hchi]
    have hlook : dlookup key (cwList op (stPairs op st) m []) =
        some (some ((storedScale st (op.channels.getD i "")).inv
          ((m.centers.getD c []).getD i 0))) := by
      rw [hkeq, ← hgetD, getD_eq_getElem _ _ _ hi]
      exact dlookup_cwList op st m [] hch c i hc hi
    have hval : e = (key, some ((storedScale st (op.channels.getD i "")).inv
        ((m.centers.getD c []).getD i 0))) := by
      rw [← heq, ← hke0]
      show (match dlookup (key, (none : Val)).1 (cwList op (stPairs op st) m []) with
        | some v => ((key, (none : Val)).1, v)
        | none => (key, (none : Val))) = _
      rw [show (key, (none : Val)).1 = key from rfl, hlook]
    obtain ⟨lo, hlo_mem, hi2, hhi2_mem, hlo_le, hle_hi2⟩ := hcent c hc i hi
    refine ⟨c, hc, i, hi, ?_, ?_, ?_⟩
    · rw [hval, hkeq, hgetD]
    · rw [hval]
    · refine ⟨(storedScale st (op.channels.getD i "")).inv lo,
        inv_scaledVal_mem ex _ _ (hid _ (hgetD ▸ hch_mem)) lo hlo_mem,
        (storedScale st (op.channels.getD i "")).inv hi2,
        inv_scaledVal_mem ex _ _ (hid _ (hgetD ▸ hch_mem)) hi2 hhi2_mem, ?_, ?_⟩
      · exact hmono _ (hgetD ▸ hch_mem) lo _ hlo_le
      · exact hmono _ (hgetD ▸ hch_mem) _ hi2 hle_hi2

set_option maxRecDepth 8000 in
/-- C9 witness: the stored model of `estimate` on `exW1` (identity scale),
whose centroids `0` and `10` are values of the "X" column. -/
theorem c9_centers_stat_witness :
    dlookup [] stW.kmeans = some (⟨[[0], [10]]⟩ : KMModel) ∧
      isOkE (applyOp opW stW (some exW1)) = true ∧
      ∃ S, centersOf (okD (applyOp opW stW (some exW1))) opW.name = some S ∧
        S.length = opW.num_clusters * opW.channels.length :=
  ⟨by decide,
   (c9_centers_stat opW stW exW1 ⟨[[0], [10]]⟩ rfl (List.cons_ne_nil _ _) (by decide) (by decide)
     (by decide) (by decide) (by decide) (by decide) (by decide) (by decide)
     (by
       intro c hc i hi
       have h2' : opW.num_clusters = 2 := rfl
       have hlen1 : opW.channels.length = 1 := rfl
       rw [h2'] at hc
       rw [hlen1] at hi
       interval_cases c <;> interval_cases i <;> decide)
     (by
       intro ch hch x y hxy
       have hche : ch = "X" := by
         have := List.mem_singleton.mp hch
         exact this
       subst hche
       have h0 : storedScale stW "X" = idScale := rfl
       rw [h0]
       exact hxy)
     (by
       intro ch hch q s' hq
       have hche : ch = "X" := List.mem_singleton.mp hch
       subst hche
       have h0 : storedScale stW "X" = idScale := rfl
       rw [h0] at hq ⊢
       have hqs : q = s' := by
         injection hq
       rw [← hqs]
       rfl)).1,
   ((c9_centers_stat opW stW exW1 ⟨[[0], [10]]⟩ rfl (List.cons_ne_nil _ _) (by decide) (by decide)
     (by decide) (by decide) (by decide) (by decide) (by decide) (by decide)
     (by
       intro c hc i hi
       have h2' : opW.num_clusters = 2 := rfl
       have hlen1 : opW.channels.length = 1 := rfl
       rw [h2'] at hc
       rw [hlen1] at hi
       interval_cases c <;> interval_cases i <;> decide)
     (by
       intro ch hch x y hxy
       have hche : ch = "X" := List.mem_singleton.mp hch
       subst hche
       have h0 : storedScale stW "X" = idScale := rfl
       rw [h0]
       exact hxy)
     (by
       intro ch hch q s' hq
       have hche : ch = "X" := List.mem_singleton.mp hch
       subst hche
       have h0 : storedScale stW "X" = idScale := rfl
       rw [h0] at hq ⊢
       have hqs : q = s' := by
         injection hq
       rw [← hqs]
       rfl)).2).elim (fun S hS => ⟨S, hS.1, hS.2.1⟩)⟩

end Cytoflow
